import Mathlib

/-!
Verification of the gateway-go reverse proxy core.

This file gives a shallow embedding, in Lean, of the route-matching engine,
the plugin chain, the dispatcher, and the main policy plugins (rate limiter,
circuit breaker, interface auth, consistency, CORS) of the gateway-go
repository, together with theorems about their behaviour.

Conventions used throughout:
- Go machine integers are modelled as Int (or Nat where the source value is
  provably non-negative); Go float64 arithmetic on counters is modelled with
  exact rational arithmetic.
- Go regular-expression matching (regexp.MatchString) is kept abstract as a
  Boolean oracle parameter, since the claims under study never hinge on the
  regex engine itself.
- Request handling is single-threaded per request, as in the source, so
  mutable per-request state becomes explicit state passing.
-/

namespace GatewayGo

/-! ## String helpers mirroring the Go standard library calls used -/

/-- Model of Go strings.Trim(path, cutset) for the one-character cutset used
by the trie router: drops the character from both ends. -/
def trimChar (c : Char) (s : String) : String :=
  ⟨((s.data.dropWhile (fun a => a = c)).reverse.dropWhile (fun a => a = c)).reverse⟩

/-- Model of Go strings.HasPrefix(s, p). -/
def strHasPre (p s : String) : Bool :=
  p.data.isPrefixOf s.data

/-- Character-level splitter behind the model of Go strings.Split with a
one-character separator: splitting the empty string gives one empty field,
matching the Go behaviour for a non-empty separator. -/
def splitChar (c : Char) : List Char → List (List Char)
  | [] => [[]]
  | a :: rest =>
      let r := splitChar c rest
      if a = c then [] :: r
      else
        match r with
        | h :: t => (a :: h) :: t
        | [] => [[a]]

/-- Model of Go strings.ReplaceAll(pattern, star, dot-star) as used by the
wildcard matcher. -/
def starToDotStar : List Char → List Char
  | [] => []
  | a :: rest =>
      if a = '*' then '.' :: '*' :: starToDotStar rest
      else a :: starToDotStar rest

/-! ## Route data model (src/internal/router/manager.go) -/

/-- RouteMatchType from manager.go: exact, prefix, regex, wildcard.
The prefix constructor is spelled prefixT because of Lean keyword limits. -/
inductive RouteMatchType where
  | exact
  | prefixT
  | regex
  | wildcard
deriving DecidableEq, Repr

/-- RouteMatch from manager.go (the fields consulted by matchRule; the
A/B-test and namespace fields play no role in route selection). Header and
query maps are association lists. -/
structure RouteMatch where
  type : RouteMatchType
  path : String
  regex : String
  host : String
  method : String
  headers : List (String × String)
  queryParams : List (String × String)
  priority : Int
deriving DecidableEq, Repr

/-- TargetService from manager.go. -/
structure TargetService where
  url : String
  timeout : Int
  retries : Int
deriving DecidableEq, Repr

/-- RouteDefinition from manager.go. -/
structure RouteDefinition where
  name : String
  mtch : RouteMatch
  target : TargetService
  plugins : List String
deriving DecidableEq, Repr

/-- An incoming HTTP request as consulted by the matching engine: the gin
context accessors used are Request.URL.Path, Request.Host, Request.Method,
GetHeader and Query. -/
structure Request where
  path : String
  host : String
  method : String
  header : String → String
  query : String → String

/-- The behaviour of the Go regexp engine is abstracted as an oracle:
rx pattern s is true when the compiled pattern matches s. -/
def RegexOracle : Type := String → String → Bool

/-- Manager.matchWildcard: translate the wildcard pattern to an anchored
regex and consult the regex engine. -/
def matchWildcard (rx : RegexOracle) (path pattern : String) : Bool :=
  rx ⟨'^' :: (starToDotStar pattern.data ++ ['$'])⟩ path

/-- Manager.matchPath from manager.go. -/
def matchPath (rx : RegexOracle) (path : String) (rule : RouteMatch) : Bool :=
  match rule.type with
  | .exact => path == rule.path
  | .prefixT => strHasPre rule.path path
  | .regex => rx rule.regex path
  | .wildcard => matchWildcard rx path rule.path

/-- Manager.matchRule from manager.go: path, host, method, headers and
query parameters must all be satisfied. -/
def matchRule (rx : RegexOracle) (req : Request) (rule : RouteMatch) : Bool :=
  matchPath rx req.path rule &&
  (rule.host == "" || req.host == rule.host) &&
  (rule.method == "" || req.method == rule.method) &&
  rule.headers.all (fun kv => req.header kv.1 == kv.2) &&
  rule.queryParams.all (fun kv => req.query kv.1 == kv.2)

/-! ## Trie router (src/internal/router/trie.go) -/

/-- TrieNode from trie.go: children keyed by path segment, an optional route
and an isEnd marker. -/
inductive TrieNode where
  | mk (children : List (String × TrieNode)) (route : Option RouteDefinition) (isEnd : Bool)

/-- Accessor for the children list of a trie node. -/
def TrieNode.children : TrieNode → List (String × TrieNode)
  | .mk c _ _ => c

/-- Accessor for the stored route of a trie node. -/
def TrieNode.route : TrieNode → Option RouteDefinition
  | .mk _ r _ => r

/-- Accessor for the isEnd marker of a trie node. -/
def TrieNode.isEnd : TrieNode → Bool
  | .mk _ _ e => e

/-- The empty trie node, as built by NewTrieRouter. -/
def TrieNode.empty : TrieNode := .mk [] none false

/-- Lookup in the children association list (Go map indexing). -/
def childFind (k : String) : List (String × TrieNode) → Option TrieNode
  | [] => none
  | kv :: rest => if kv.1 == k then some kv.2 else childFind k rest

/-- Update or insert a child under key k (Go map assignment). -/
def childSet (k : String) (v : TrieNode) : List (String × TrieNode) → List (String × TrieNode)
  | [] => [(k, v)]
  | kv :: rest => if kv.1 == k then (k, v) :: rest else kv :: childSet k v rest

/-- TrieRouter.Insert walking the split path segments; at the end the node
is marked terminal and stores the route. -/
def trieInsertParts (r : RouteDefinition) : List String → TrieNode → TrieNode
  | [], .mk ch _ _ => .mk ch (some r) true
  | p :: ps, .mk ch rt e =>
      let child := (childFind p ch).getD TrieNode.empty
      .mk (childSet p (trieInsertParts r ps child) ch) rt e

/-- Splitting a route path into segments: strings.Split(strings.Trim(path,
slash), slash) from trie.go. -/
def pathParts (path : String) : List String :=
  (splitChar '/' (trimChar '/' path).data).map (fun l => ⟨l⟩)

/-- TrieRouter.Insert from trie.go. -/
def trieInsert (path : String) (r : RouteDefinition) (root : TrieNode) : TrieNode :=
  trieInsertParts r (pathParts path) root

/-- TrieRouter.Match descending through the children maps. -/
def trieMatchParts : List String → TrieNode → Option RouteDefinition
  | [], n => if n.isEnd then n.route else none
  | p :: ps, n =>
      match childFind p n.children with
      | some child => trieMatchParts ps child
      | none => none

/-- TrieRouter.Match from trie.go. -/
def trieMatch (root : TrieNode) (path : String) : Option RouteDefinition :=
  trieMatchParts (pathParts path) root

/-- Manager.loadConfig builds the trie by inserting every route of the
configuration (regardless of its match type), in declaration order. -/
def buildTrie (routes : List RouteDefinition) : TrieNode :=
  routes.foldl (fun t r => trieInsert r.mtch.path r t) TrieNode.empty

/-! ## Route cache (src/internal/router/cache.go) and route selection -/

/-- The path-to-route cache is an association list here; RouteCache.Get is a
plain map lookup. Capacity-based eviction does not affect which route a hit
returns, so it is not modelled. -/
def cacheFind (k : String) : List (String × RouteDefinition) → Option RouteDefinition
  | [] => none
  | kv :: rest => if kv.1 == k then some kv.2 else cacheFind k rest

/-- One step of the linear fallback scan of Manager.MatchRoute: the
accumulator carries highestPriority and bestMatch. -/
def scanStep (rx : RegexOracle) (req : Request) (st : Int × Option RouteDefinition)
    (route : RouteDefinition) : Int × Option RouteDefinition :=
  if matchRule rx req route.mtch && decide (route.mtch.priority > st.1)
  then (route.mtch.priority, some route)
  else st

/-- The linear fallback scan of Manager.MatchRoute: walk all routes, keep
the first route whose predicates hold and whose priority strictly exceeds
the best seen so far, starting from highestPriority = -1. -/
def scanRoutes (rx : RegexOracle) (req : Request) (routes : List RouteDefinition) :
    Option RouteDefinition :=
  (routes.foldl (scanStep rx req) (-1, none)).2

/-- Stages 2 and 3 of Manager.MatchRoute: consult the trie (validating the
full rule on a hit) and otherwise fall back to the linear scan. -/
def trieOrScan (rx : RegexOracle) (trie : TrieNode) (routes : List RouteDefinition)
    (req : Request) : Option RouteDefinition :=
  match trieMatch trie req.path with
  | some t => if matchRule rx req t.mtch then some t else scanRoutes rx req routes
  | none => scanRoutes rx req routes

/-- Route selection of Manager.MatchRoute from manager.go: consult the path
cache first (re-validating the rule), then the trie (re-validating the
rule), then the linear fallback scan. Plugin-chain execution and A/B-test
handling happen after the route has been chosen and do not influence which
route is selected. -/
def selectRoute (rx : RegexOracle) (cache : List (String × RouteDefinition))
    (trie : TrieNode) (routes : List RouteDefinition) (req : Request) :
    Option RouteDefinition :=
  match cacheFind req.path cache with
  | some r =>
      if matchRule rx req r.mtch then some r else trieOrScan rx trie routes req
  | none => trieOrScan rx trie routes req

/-! ## Lemmas about the fallback scan -/

/-- The scan accumulator stays sound: a stored best match satisfies the
rule and carries exactly the stored highest priority. -/
theorem scanFold_sound (rx : RegexOracle) (req : Request) :
    ∀ (routes : List RouteDefinition) (st : Int × Option RouteDefinition),
      (∀ b, st.2 = some b → matchRule rx req b.mtch = true ∧ b.mtch.priority = st.1) →
      ∀ b, (routes.foldl (scanStep rx req) st).2 = some b →
        matchRule rx req b.mtch = true ∧
        b.mtch.priority = (routes.foldl (scanStep rx req) st).1 := by
  intro routes
  induction routes with
  | nil => intro st h b hb; exact h b hb
  | cons route rest ih =>
      intro st h b
      simp only [List.foldl_cons]
      apply ih
      intro b0 hb0
      unfold scanStep at hb0 ⊢
      by_cases hc : (matchRule rx req route.mtch && decide (route.mtch.priority > st.1)) = true
      · simp only [hc, if_true] at hb0 ⊢
        cases hb0
        have hcc : matchRule rx req route.mtch = true ∧
            decide (route.mtch.priority > st.1) = true := by simpa using hc
        exact ⟨hcc.1, rfl⟩
      · simp only [hc, if_false] at hb0 ⊢
        exact h b0 hb0

/-- The stored highest priority never decreases during the scan. -/
theorem scanFold_le (rx : RegexOracle) (req : Request) :
    ∀ (routes : List RouteDefinition) (st : Int × Option RouteDefinition),
      st.1 ≤ (routes.foldl (scanStep rx req) st).1 := by
  intro routes
  induction routes with
  | nil => intro st; exact le_refl _
  | cons route rest ih =>
      intro st
      simp only [List.foldl_cons]
      refine le_trans ?_ (ih (scanStep rx req st route))
      unfold scanStep
      by_cases hc : (matchRule rx req route.mtch && decide (route.mtch.priority > st.1)) = true
      · simp only [hc, if_true]
        have hcc : matchRule rx req route.mtch = true ∧
            decide (route.mtch.priority > st.1) = true := by simpa using hc
        exact le_of_lt (of_decide_eq_true hcc.2)
      · simp only [hc, if_false]
        exact le_refl _

/-- Every satisfied route examined by the scan has priority at most the
final stored highest priority. -/
theorem scanFold_max (rx : RegexOracle) (req : Request) :
    ∀ (routes : List RouteDefinition) (st : Int × Option RouteDefinition)
      (r : RouteDefinition), r ∈ routes → matchRule rx req r.mtch = true →
      r.mtch.priority ≤ (routes.foldl (scanStep rx req) st).1 := by
  intro routes
  induction routes with
  | nil => intro st r hr; exact absurd hr (List.not_mem_nil r)
  | cons route rest ih =>
      intro st r hr hmatch
      simp only [List.foldl_cons]
      rcases List.mem_cons.mp hr with heq | htail
      · subst heq
        refine le_trans ?_ (scanFold_le rx req rest (scanStep rx req st r))
        unfold scanStep
        by_cases hc : (matchRule rx req r.mtch && decide (r.mtch.priority > st.1)) = true
        · simp only [hc, if_true]
          exact le_refl _
        · simp only [hc, if_false]
          by_cases hlt : r.mtch.priority > st.1
          · exact absurd (by simp [hmatch, hlt]) hc
          · exact le_of_not_lt hlt
      · exact ih (scanStep rx req st route) r htail hmatch

/-- The fallback scan only returns satisfied routes, and what it returns is
priority-maximal among all satisfied routes. -/
theorem scanRoutes_spec (rx : RegexOracle) (req : Request)
    (routes : List RouteDefinition) (b : RouteDefinition)
    (hb : scanRoutes rx req routes = some b) :
    matchRule rx req b.mtch = true ∧
    ∀ r ∈ routes, matchRule rx req r.mtch = true →
      r.mtch.priority ≤ b.mtch.priority := by
  unfold scanRoutes at hb
  have hsound := scanFold_sound rx req routes (-1, none) (by intro b0 hb0; cases hb0) b hb
  refine ⟨hsound.1, ?_⟩
  intro r hr hmatch
  calc r.mtch.priority
      ≤ (routes.foldl (scanStep rx req) (-1, none)).1 :=
        scanFold_max rx req routes (-1, none) r hr hmatch
    _ = b.mtch.priority := hsound.2.symm

/-- The trie-or-scan stage only returns routes whose predicates hold. -/
theorem trieOrScan_sound (rx : RegexOracle) (trie : TrieNode)
    (routes : List RouteDefinition) (req : Request) (r : RouteDefinition)
    (hr : trieOrScan rx trie routes req = some r) :
    matchRule rx req r.mtch = true := by
  unfold trieOrScan at hr
  split at hr
  case h_1 t ht =>
    split at hr
    case isTrue h => cases hr; exact h
    case isFalse => exact (scanRoutes_spec rx req routes r hr).1
  case h_2 => exact (scanRoutes_spec rx req routes r hr).1

/-! ## Claim C1 -/

/-- C1 (amended): route selection returns at most one route (it is a
partial function into Option), and every route it returns satisfies its
full predicate set for the request; moreover, whenever selection falls
through to the linear priority scan, the returned route has the highest
priority among all routes whose predicates are satisfied. The cache and
trie fast paths, however, may return a satisfied route that does not have
the highest priority (see the counterexample). -/
theorem selectRoute_sound_and_scan_max (rx : RegexOracle)
    (cache : List (String × RouteDefinition)) (trie : TrieNode)
    (routes : List RouteDefinition) (req : Request) :
    (∀ r, selectRoute rx cache trie routes req = some r →
      matchRule rx req r.mtch = true) ∧
    (∀ b, scanRoutes rx req routes = some b →
      ∀ r ∈ routes, matchRule rx req r.mtch = true →
        r.mtch.priority ≤ b.mtch.priority) := by
  constructor
  · intro r hr
    unfold selectRoute at hr
    split at hr
    case h_1 c hcache =>
      split at hr
      case isTrue h => cases hr; exact h
      case isFalse => exact trieOrScan_sound rx trie routes req r hr
    case h_2 => exact trieOrScan_sound rx trie routes req r hr
  · intro b hb r hr hm
    exact (scanRoutes_spec rx req routes b hb).2 r hr hm

/-- A regex oracle that never matches; the counterexample uses only exact
and prefix routes, so the oracle is irrelevant there. -/
def rxNone : RegexOracle := fun _ _ => false

/-- Example route: exact match on the path /a with priority 1. -/
def routeExactA : RouteDefinition :=
  { name := "exact-a"
    mtch := { type := .exact, path := "/a", regex := "", host := "", method := ""
              headers := [], queryParams := [], priority := 1 }
    target := { url := "http://a:80", timeout := 0, retries := 0 }
    plugins := [] }

/-- Example route: prefix match on / with priority 10. -/
def routeCatchAll : RouteDefinition :=
  { name := "catch-all"
    mtch := { type := .prefixT, path := "/", regex := "", host := "", method := ""
              headers := [], queryParams := [], priority := 10 }
    target := { url := "http://b:80", timeout := 0, retries := 0 }
    plugins := [] }

/-- A GET request for /a with no interesting headers or query. -/
def reqA : Request :=
  { path := "/a", host := "h", method := "GET"
    header := fun _ => "", query := fun _ => "" }

/-- C1 (counterexample): with the exact /a route (priority 1) and the
catch-all prefix route (priority 10) both loaded, the trie fast path of
Manager.MatchRoute answers the request for /a with the priority-1 route
even though the priority-10 route also satisfies all its predicates, so
the selected route does not have the highest priority among the satisfied
routes. -/
theorem selectRoute_not_priority_maximal :
    selectRoute rxNone [] (buildTrie [routeExactA, routeCatchAll])
        [routeExactA, routeCatchAll] reqA = some routeExactA ∧
    matchRule rxNone reqA routeCatchAll.mtch = true ∧
    routeExactA.mtch.priority < routeCatchAll.mtch.priority := by
  refine ⟨?_, by decide, by decide⟩
  decide

/-- Witness for the amended C1 theorem at the concrete counterexample
configuration: the route selected via the trie does satisfy its own
predicates. -/
theorem selectRoute_sound_and_scan_max_witness :
    matchRule rxNone reqA routeExactA.mtch = true :=
  (selectRoute_sound_and_scan_max rxNone []
      (buildTrie [routeExactA, routeCatchAll]) [routeExactA, routeCatchAll]
      reqA).1 routeExactA (by decide)

/-! ## Per-request context and plugins
(src/internal/plugin/core, gin.Context effects used by the plugins) -/

/-- The per-request mutable gin context as the plugins use it: an aborted
flag (ctx.Abort / ctx.IsAborted), the responses written so far (ctx.JSON,
ctx.String, ctx.Status record a status and a body), the response headers
set (ctx.Header) and the context key store (ctx.Set / ctx.Get). -/
structure Ctx where
  request : Request
  aborted : Bool
  writes : List (Int × String)
  respHeaders : List (String × String)
  keys : List (String × String)

/-- Record a response write (status code plus body). -/
def Ctx.write (ctx : Ctx) (status : Int) (body : String) : Ctx :=
  { ctx with writes := ctx.writes ++ [(status, body)] }

/-- Mark the context aborted (ctx.Abort). -/
def Ctx.abort (ctx : Ctx) : Ctx :=
  { ctx with aborted := true }

/-- Set a response header (ctx.Header). -/
def Ctx.setHeader (ctx : Ctx) (k v : String) : Ctx :=
  { ctx with respHeaders := (k, v) :: ctx.respHeaders }

/-- Store a context key (ctx.Set); later stores shadow earlier ones. -/
def Ctx.setKey (ctx : Ctx) (k v : String) : Ctx :=
  { ctx with keys := (k, v) :: ctx.keys }

/-- Read a context key (ctx.Get). -/
def Ctx.getKey (ctx : Ctx) (k : String) : Option String :=
  (ctx.keys.find? (fun kv => kv.1 == k)).map (fun kv => kv.2)

/-- Check whether a response header has been set to a given value. -/
def Ctx.hasHeader (ctx : Ctx) (k v : String) : Bool :=
  ctx.respHeaders.contains (k, v)

/-- A plugin instance as the chain sees it (core.Plugin): a name, an order,
and an Execute function from context to updated context plus optional
error. -/
structure Plugin where
  name : String
  order : Int
  exec : Ctx → Ctx × Option String

/-! ## Plugin chain (internal/plugin/chain/chain.go, the variant with the
result cache wired by Manager.LoadRoutePlugins) -/

/-- The plugin-result cache contents: fingerprint key to the captured
context entries. Expiry is time-driven in the source; an expired entry is
modelled as absent. -/
def PluginCacheState : Type := List (String × List (String × String))

/-- Cache lookup (PluginCache.Get). -/
def cacheLookup (k : String) (cache : PluginCacheState) :
    Option (List (String × String)) :=
  (cache.find? (fun kv => kv.1 == k)).map (fun kv => kv.2)

/-- Cache insert (PluginCache.Set). -/
def cacheInsert (k : String) (v : List (String × String))
    (cache : PluginCacheState) : PluginCacheState :=
  (k, v) :: cache

/-- Chain.Execute from chain.go: for each plugin in order, consult the
result cache (when wired); on a hit restore the captured context keys and
skip the plugin; otherwise run the plugin, stop the chain if it returned an
error, and after a successful run capture the plugin_result_name context
key into the cache. Note that the loop never consults ctx.IsAborted. -/
def chainExecute (genKey : Ctx → String → String) (useCache : Bool) :
    List Plugin → Ctx → PluginCacheState → Ctx × PluginCacheState × Option String
  | [], ctx, cache => (ctx, cache, none)
  | p :: rest, ctx, cache =>
      let cacheKey := genKey ctx p.name
      match (if useCache then cacheLookup cacheKey cache else none) with
      | some entries =>
          chainExecute genKey useCache rest
            { ctx with keys := entries ++ ctx.keys } cache
      | none =>
          match p.exec ctx with
          | (ctx1, some e) => (ctx1, cache, some e)
          | (ctx1, none) =>
              let resultKey := "plugin_result_" ++ p.name
              let cache1 :=
                if useCache then
                  match ctx1.getKey resultKey with
                  | some v => cacheInsert cacheKey [(resultKey, v)] cache
                  | none => cache
                else cache
              chainExecute genKey useCache rest ctx1 cache1

/-! ## Token bucket (rate-limit plugin, TokenBucket.allow) -/

/-- Nanoseconds per second (time.Second). -/
def nsPerSec : Nat := 1000000000

/-- Mutable token-bucket state per limiter key: current tokens and the
lastRefill timestamp, in nanoseconds. -/
structure TBState where
  tokens : Nat
  lastRefill : Nat
deriving DecidableEq, Repr

/-- The refill phase of TokenBucket.allow: add floor(elapsed-seconds times
rate) tokens clamped at capacity and move lastRefill, but only when the
addition is positive. Time is in nanoseconds. The float64 rate of the
source (requests_per_second admits fractional values) is carried as the
exact rational rateNum over rateDen, so the truncation
int64(elapsed times rate) is floor(rateNum times elapsed-ns over
(nsPerSec times rateDen)), realised by natural division. -/
def tbRefill (rateNum rateDen capacity : Nat) (s : TBState) (now : Nat) : TBState :=
  let tokensToAdd := rateNum * (now - s.lastRefill) / (nsPerSec * rateDen)
  if 0 < tokensToAdd then ⟨min capacity (s.tokens + tokensToAdd), now⟩ else s

/-- TokenBucket.allow: refill, then consume one token when available. -/
def tbAllow (rateNum rateDen capacity : Nat) (s : TBState) (now : Nat) :
    TBState × Bool :=
  let s1 := tbRefill rateNum rateDen capacity s now
  if 0 < s1.tokens then (⟨s1.tokens - 1, s1.lastRefill⟩, true) else (s1, false)

/-- RateLimitPlugin.Execute for a fixed key at a fixed instant, as a chain
plugin (here over a whole-number rate): on denial it writes 429 and aborts
the context but returns no error. -/
def rateLimitPluginAt (rate capacity : Nat) (bucket : TBState) (now : Nat) : Plugin :=
  { name := "rate_limit"
    order := 10
    exec := fun ctx =>
      let res := tbAllow rate 1 capacity bucket now
      if res.2 then (ctx, none)
      else ((ctx.write 429 "too many requests").abort, none) }

/-! ## CORS plugin (src/internal/plugin/plugins/cors/cors.go) -/

/-- Character-level comma-space join behind the model of strings.Join with
separator comma-space. -/
def joinCommaChars : List (List Char) → List Char
  | [] => []
  | [x] => x
  | x :: rest => x ++ (',' :: ' ' :: joinCommaChars rest)

/-- Model of strings.Join(list, comma-space). -/
def joinComma (l : List String) : String :=
  ⟨joinCommaChars (l.map String.data)⟩

/-- CorsPlugin configuration: each field is present when the corresponding
key exists in the config map with the expected type, absent otherwise. -/
structure CorsConfig where
  allowedOrigins : Option (List String)
  allowedMethods : Option (List String)
  allowedHeaders : Option (List String)
  exposedHeaders : Option (List String)
  maxAge : Option String

/-- CorsPlugin.getAllowedOrigins: defaults to the single wildcard entry. -/
def getAllowedOrigins (cfg : CorsConfig) : List String :=
  cfg.allowedOrigins.getD ["*"]

/-- CorsPlugin.getAllowedMethods. -/
def getAllowedMethods (cfg : CorsConfig) : String :=
  match cfg.allowedMethods with
  | some l => joinComma l
  | none => "GET, POST, PUT, DELETE, OPTIONS"

/-- CorsPlugin.getAllowedHeaders. -/
def getAllowedHeaders (cfg : CorsConfig) : String :=
  match cfg.allowedHeaders with
  | some l => joinComma l
  | none => "*"

/-- CorsPlugin.getExposedHeaders. -/
def getExposedHeaders (cfg : CorsConfig) : String :=
  match cfg.exposedHeaders with
  | some l => joinComma l
  | none => "Content-Length"

/-- CorsPlugin.getMaxAge. -/
def getMaxAge (cfg : CorsConfig) : String :=
  cfg.maxAge.getD "43200"

/-- CorsPlugin.isOriginAllowed from cors.go: an empty origin is never
allowed; an empty configured list denies; a single wildcard entry allows
everything; otherwise the origin must appear in the list. -/
def isOriginAllowed (cfg : CorsConfig) (origin : String) : Bool :=
  if origin == "" then false
  else
    let allowedOrigins := getAllowedOrigins cfg
    if allowedOrigins.length == 0 then false
    else if allowedOrigins.length == 1 && allowedOrigins.getD 0 "" == "*" then true
    else allowedOrigins.contains origin

/-- CorsPlugin.handlePreflight: 403 for a disallowed origin, otherwise the
five CORS headers plus status 200. -/
def handlePreflight (cfg : CorsConfig) (ctx : Ctx) : Ctx :=
  let origin := ctx.request.header "Origin"
  if !(isOriginAllowed cfg origin) then ctx.write 403 ""
  else
    (((((ctx.setHeader "Access-Control-Allow-Origin" origin).setHeader
        "Access-Control-Allow-Methods" (getAllowedMethods cfg)).setHeader
        "Access-Control-Allow-Headers" (getAllowedHeaders cfg)).setHeader
        "Access-Control-Expose-Headers" (getExposedHeaders cfg)).setHeader
        "Access-Control-Max-Age" (getMaxAge cfg)).write 200 ""

/-- CorsPlugin.handleActualRequest: for an allowed non-empty origin set the
allow-origin and expose-headers response headers and continue. -/
def handleActualRequest (cfg : CorsConfig) (ctx : Ctx) : Ctx :=
  let origin := ctx.request.header "Origin"
  if origin != "" && isOriginAllowed cfg origin then
    (ctx.setHeader "Access-Control-Allow-Origin" origin).setHeader
      "Access-Control-Expose-Headers" (getExposedHeaders cfg)
  else ctx

/-- CorsPlugin.Execute: preflight requests are answered and aborted, other
requests get response headers and continue; no error is ever returned. -/
def corsExecute (cfg : CorsConfig) (ctx : Ctx) : Ctx × Option String :=
  if ctx.request.method == "OPTIONS" then ((handlePreflight cfg ctx).abort, none)
  else (handleActualRequest cfg ctx, none)

/-- The CORS plugin as a chain plugin (name cors, order 20). -/
def corsPlugin (cfg : CorsConfig) : Plugin :=
  { name := "cors", order := 20, exec := corsExecute cfg }

/-! ## Configuration route model (src/internal/config/config.go) -/

/-- RouteMatch from config.go; the type discriminator is a raw string. -/
structure ConfRouteMatch where
  type : String
  path : String
  priority : Int
  host : String
  method : String
  headers : List (String × String)
  queryParams : List (String × String)
deriving DecidableEq, Repr

/-- ResponseConfig from config.go. -/
structure ResponseConfig where
  status : Int
  content : String
  contentType : String
deriving DecidableEq, Repr

/-- TargetConfig from config.go. -/
structure TargetConfig where
  url : String
  timeout : Int
  retries : Int
deriving DecidableEq, Repr

/-- RouteConfig from config.go. -/
structure ConfRoute where
  name : String
  mtch : ConfRouteMatch
  target : TargetConfig
  plugins : List String
  response : Option ResponseConfig
deriving DecidableEq, Repr

/-! ## Request dispatcher (registerRoutes middleware in the main package) -/

/-- The path-matching helper matchRoute of the main package: only exact and
prefix are recognised; any other type string falls back to exact
comparison. -/
def mainMatchRoute (path : String) (m : ConfRouteMatch) : Bool :=
  if m.type == "exact" then path == m.path
  else if m.type == "prefix" then strHasPre m.path path
  else path == m.path

/-- Insert a route into a priority-descending list, keeping the order
consistent with the sort.Slice comparator of registerRoutes. -/
def insertByPriority (r : ConfRoute) : List ConfRoute → List ConfRoute
  | [] => [r]
  | x :: xs =>
      if decide (r.mtch.priority > x.mtch.priority) then r :: x :: xs
      else x :: insertByPriority r xs

/-- The priority-descending sort performed by registerRoutes before the
scan. sort.Slice is not stable, so any comparator-consistent permutation is
a possible execution; insertion sort realises one of them. -/
def sortByPriorityDesc (routes : List ConfRoute) : List ConfRoute :=
  routes.foldr insertByPriority []

/-- The first route in the (sorted) list whose path matches. -/
def findRoute (path : String) : List ConfRoute → Option ConfRoute
  | [] => none
  | r :: rest => if mainMatchRoute path r.mtch then some r else findRoute path rest

/-- Model of Go strings.TrimPrefix. -/
def goTrimPre (p s : String) : String :=
  if strHasPre p s then ⟨s.data.drop p.data.length⟩ else s

/-- Upstream path computation of the middleware: strip the matched prefix
for prefix routes whose pattern is not the bare slash, re-rooting the
result at slash when needed. -/
def proxyPathOf (m : ConfRouteMatch) (path : String) : String :=
  if m.type == "prefix" && m.path != "/" then
    let pp := goTrimPre m.path path
    if strHasPre "/" pp then pp else ⟨'/' :: pp.data⟩
  else path

/-- Outcome of the dispatcher for one request. -/
inductive DispatchOutcome where
  | next
  | pluginError (msg : String)
  | shortCircuit
  | internalResp (status : Int) (content : String) (contentType : String)
  | badTarget
  | proxy (url : String) (upstreamPath : String)
deriving DecidableEq, Repr

/-- Continuation of the registerRoutes middleware after the plugin chain
has run without error: stop on an aborted context, emit the internal
response for internal targets (configured response first, built-in body
otherwise), or hand the request to the reverse proxy. The urlOk oracle
stands for url.Parse succeeding on the target. -/
def dispatchAfterChain (urlOk : String → Bool) (route : ConfRoute) (path : String)
    (ctx2 : Ctx) : DispatchOutcome × Ctx :=
  if ctx2.aborted then (.shortCircuit, ctx2)
  else if strHasPre "internal://" route.target.url then
    match route.response with
    | some resp =>
        let ct := if resp.contentType != "" then resp.contentType else "text/plain"
        (.internalResp resp.status resp.content ct,
          ((ctx2.setHeader "Content-Type" ct).write resp.status resp.content).abort)
    | none =>
        (.internalResp 200 "gateway-go running" "",
          (ctx2.write 200 "gateway-go running").abort)
  else if urlOk route.target.url then
    (.proxy route.target.url (proxyPathOf route.mtch path), ctx2.abort)
  else (.badTarget, (ctx2.write 500 "invalid target URL").abort)

/-- Handling of a matched route by the registerRoutes middleware: publish
the target into the context, run the plugin chain (500 on error), then
continue as dispatchAfterChain. -/
def dispatchMatched (chainRun : Ctx → Ctx × Option String) (urlOk : String → Bool)
    (route : ConfRoute) (ctx : Ctx) : DispatchOutcome × Ctx :=
  match chainRun (ctx.setKey "target" route.target.url) with
  | (ctx2, some e) => (.pluginError e, (ctx2.write 500 e).abort)
  | (ctx2, none) => dispatchAfterChain urlOk route ctx.request.path ctx2

/-- The registerRoutes middleware of the main package: find the first
matching route in the priority-sorted list and handle it. -/
def dispatchRequest (chainRun : Ctx → Ctx × Option String) (urlOk : String → Bool)
    (routes : List ConfRoute) (ctx : Ctx) : DispatchOutcome × Ctx :=
  match findRoute ctx.request.path (sortByPriorityDesc routes) with
  | none => (.next, ctx)
  | some route => dispatchMatched chainRun urlOk route ctx

/-! ## Claim C2 -/

/-- RateLimitPlugin.Execute never returns an error, even on denial. -/
theorem rateLimit_exec_no_error (rate capacity : Nat) (b : TBState) (now : Nat)
    (ctx : Ctx) : ((rateLimitPluginAt rate capacity b now).exec ctx).2 = none := by
  unfold rateLimitPluginAt
  simp only
  split <;> rfl

/-- CorsPlugin.Execute never returns an error. -/
theorem cors_exec_no_error (cfg : CorsConfig) (ctx : Ctx) :
    ((corsPlugin cfg).exec ctx).2 = none := by
  unfold corsPlugin corsExecute
  simp only
  split <;> rfl

/-- When no plugin of a chain returns an error, Chain.Execute applies every
plugin in order, whether or not an earlier plugin aborted the context. -/
theorem chainExecute_no_error_runs_all (genKey : Ctx → String → String)
    (plugins : List Plugin) :
    ∀ (ctx : Ctx) (cache : PluginCacheState),
      (∀ p ∈ plugins, ∀ c, (p.exec c).2 = none) →
      chainExecute genKey false plugins ctx cache =
        (plugins.foldl (fun c p => (p.exec c).1) ctx, cache, none) := by
  induction plugins with
  | nil => intro ctx cache _; rfl
  | cons p rest ih =>
      intro ctx cache h
      have hp : (p.exec ctx).2 = none := h p (List.mem_cons_self p rest) ctx
      simp only [chainExecute, List.foldl_cons, if_false, Bool.false_eq_true]
      cases hpe : p.exec ctx with
      | mk c1 e =>
          rw [hpe] at hp
          simp only at hp
          subst hp
          simp only [if_false, Bool.false_eq_true]
          exact ih c1 cache (fun q hq c => h q (List.mem_cons_of_mem p hq) c)

/-- C2 (amended): a plugin that short-circuits (writes its response and
aborts the context) without returning an error does not stop the chain:
when no plugin errors, Chain.Execute still applies every remaining plugin.
The upstream proxy is nevertheless not invoked for such a request, because
the dispatcher checks the aborted flag after the chain and returns before
proxying; the chain itself stops early only when a plugin returns an
error. -/
theorem chain_shortcircuit_dispatch (genKey : Ctx → String → String)
    (plugins : List Plugin) (chainRun : Ctx → Ctx × Option String)
    (urlOk : String → Bool) (routes : List ConfRoute) (ctx ctx2 : Ctx)
    (route : ConfRoute) :
    ((∀ p ∈ plugins, ∀ c, (p.exec c).2 = none) →
      ∀ (c0 : Ctx) (cache : PluginCacheState),
        chainExecute genKey false plugins c0 cache =
          (plugins.foldl (fun c p => (p.exec c).1) c0, cache, none)) ∧
    (findRoute ctx.request.path (sortByPriorityDesc routes) = some route →
      chainRun (ctx.setKey "target" route.target.url) = (ctx2, none) →
      ctx2.aborted = true →
      dispatchRequest chainRun urlOk routes ctx = (.shortCircuit, ctx2)) := by
  constructor
  · intro h c0 cache
    exact chainExecute_no_error_runs_all genKey plugins c0 cache h
  · intro hfind hchain hab
    unfold dispatchRequest
    rw [hfind]
    simp [dispatchMatched, hchain, dispatchAfterChain, hab]

/-- A request carrying an Origin header, aimed at the demonstration
chain. -/
def reqCors : Request :=
  { path := "/x", host := "h", method := "GET"
    header := fun k => if k == "Origin" then "http://cli.example" else ""
    query := fun _ => "" }

/-- The fresh per-request context for that request. -/
def ctxCors : Ctx :=
  { request := reqCors, aborted := false, writes := [], respHeaders := [], keys := [] }

/-- A drained token bucket: no tokens, lastRefill at the current instant. -/
def drainedBucket : TBState := ⟨0, 0⟩

/-- A concrete fingerprint function for the cache (the exact fingerprint
shape is irrelevant to the claims). -/
def genKeyName : Ctx → String → String := fun _ n => n

/-- A two-plugin chain: the rate limiter (which will deny and
short-circuit) followed by the CORS plugin. -/
def demoChain : List Plugin :=
  [rateLimitPluginAt 1 1 drainedBucket 0, corsPlugin ⟨none, none, none, none, none⟩]

/-- C2 (counterexample): with a drained bucket, the rate limiter
short-circuits the request (writes 429 and aborts), yet the CORS plugin
placed after it in the chain still executes, observable through the CORS
response header it adds. This refutes the claim that no later plugin in
the chain executes after a short-circuit. -/
theorem chain_continues_after_shortcircuit :
    ((chainExecute genKeyName true demoChain ctxCors []).1.aborted = true) ∧
    ((chainExecute genKeyName true demoChain ctxCors []).1.writes
        = [(429, "too many requests")]) ∧
    ((chainExecute genKeyName true demoChain ctxCors []).1.hasHeader
        "Access-Control-Allow-Origin" "http://cli.example" = true) ∧
    ((chainExecute genKeyName true demoChain ctxCors []).2.2 = none) := by
  refine ⟨?_, ?_, ?_, ?_⟩ <;> decide

/-- Witness for the amended C2 theorem: at the demonstration inputs, the
chain equation and the dispatcher short-circuit conclusion both hold. -/
theorem chain_shortcircuit_dispatch_witness :
    chainExecute genKeyName false demoChain ctxCors [] =
      (demoChain.foldl (fun c p => (p.exec c).1) ctxCors, [], none) :=
  (chain_shortcircuit_dispatch genKeyName demoChain (fun c => (c, none))
      (fun _ => true) [] ctxCors ctxCors
      { name := "r", mtch := { type := "exact", path := "", priority := 0, host := ""
                               method := "", headers := [], queryParams := [] }
        target := { url := "", timeout := 0, retries := 0 }
        plugins := [], response := none }).1
    (by
      intro p hp c
      rcases List.mem_cons.mp hp with h | h
      · subst h; exact rateLimit_exec_no_error 1 1 drainedBucket 0 c
      · rcases List.mem_cons.mp h with h2 | h2
        · subst h2; exact cors_exec_no_error _ c
        · exact absurd h2 (List.not_mem_nil p))
    ctxCors []

/-! ## Claim C3 -/

/-- C3 (amended): for a matched route whose target URL begins with the
internal:// scheme, the dispatcher never hands the request to the reverse
proxy; when the chain finishes without error and without aborting, it
writes the configured response (status, content, content type defaulting
to text/plain), and with no response configured it writes status 200 with
body gateway-go running. -/
theorem internal_target_no_proxy (chainRun : Ctx → Ctx × Option String)
    (urlOk : String → Bool) (routes : List ConfRoute) (ctx ctx2 : Ctx)
    (route : ConfRoute)
    (hfind : findRoute ctx.request.path (sortByPriorityDesc routes) = some route)
    (hinternal : strHasPre "internal://" route.target.url = true) :
    (∀ u p2, (dispatchRequest chainRun urlOk routes ctx).1 ≠ .proxy u p2) ∧
    (chainRun (ctx.setKey "target" route.target.url) = (ctx2, none) →
      ctx2.aborted = false →
      (dispatchRequest chainRun urlOk routes ctx).1 =
        (match route.response with
         | some resp =>
             .internalResp resp.status resp.content
               (if resp.contentType != "" then resp.contentType else "text/plain")
         | none => .internalResp 200 "gateway-go running" "")) := by
  constructor
  · intro u p2
    unfold dispatchRequest
    rw [hfind]
    cases hc : chainRun (ctx.setKey "target" route.target.url) with
    | mk c2 e =>
        cases e with
        | some msg => simp [dispatchMatched, hc]
        | none =>
            by_cases hab : c2.aborted
            · simp [dispatchMatched, hc, dispatchAfterChain, hab]
            · cases hresp : route.response with
              | some resp =>
                  simp [dispatchMatched, hc, dispatchAfterChain, hab, hinternal, hresp]
              | none =>
                  simp [dispatchMatched, hc, dispatchAfterChain, hab, hinternal, hresp]
  · intro hchain hab
    unfold dispatchRequest
    rw [hfind]
    cases hresp : route.response with
    | some resp =>
        simp [dispatchMatched, hchain, dispatchAfterChain, hab, hinternal, hresp]
    | none =>
        simp [dispatchMatched, hchain, dispatchAfterChain, hab, hinternal, hresp]

/-- The health route of the default configuration with its response block
removed, so the dispatcher falls back to the built-in internal body. -/
def internalRoute : ConfRoute :=
  { name := "health"
    mtch := { type := "exact", path := "/health", priority := 100, host := ""
              method := "", headers := [], queryParams := [] }
    target := { url := "internal://default", timeout := 0, retries := 0 }
    plugins := [], response := none }

/-- A GET request for /health. -/
def reqHealth : Request :=
  { path := "/health", host := "h", method := "GET"
    header := fun _ => "", query := fun _ => "" }

/-- The fresh context for the /health request. -/
def ctxHealth : Ctx :=
  { request := reqHealth, aborted := false, writes := [], respHeaders := [], keys := [] }

/-- The chain of a route with no plugins, via Chain.Execute on the empty
plugin list. -/
def chainOfNoPlugins : Ctx → Ctx × Option String :=
  fun c =>
    let r := chainExecute genKeyName true [] c []
    (r.1, r.2.2)

/-- C3 (counterexample): the fallback internal response body written by the
code is gateway-go running, not gateway-go is running as the claim states;
at the concrete /health request the dispatcher emits status 200 with body
gateway-go running. -/
theorem internal_default_body_mismatch :
    (dispatchRequest chainOfNoPlugins (fun _ => true) [internalRoute] ctxHealth).1
        = .internalResp 200 "gateway-go running" "" ∧
    "gateway-go running" ≠ "gateway-go is running" := by
  constructor
  · decide
  · decide

/-- Witness for the amended C3 theorem at the /health route. -/
theorem internal_target_no_proxy_witness :
    (dispatchRequest chainOfNoPlugins (fun _ => true) [internalRoute] ctxHealth).1
      = .internalResp 200 "gateway-go running" "" := by
  have h := (internal_target_no_proxy chainOfNoPlugins (fun _ => true) [internalRoute]
      ctxHealth (ctxHealth.setKey "target" "internal://default") internalRoute
      (by decide) (by decide)).2 rfl rfl
  simpa using h

/-! ## Circuit breaker
(src/internal/plugin/plugins/circuitbreaker/circuitbreaker.go, window.go) -/

/-- CircuitBreakerState: closed, open, half-open. -/
inductive CBState where
  | closed
  | opened
  | halfOpen
deriving DecidableEq, Repr

/-- The per-breaker configuration snapshot built by getCircuitBreaker. -/
structure CBConfig where
  failureThreshold : Int
  recoveryTimeout : Int
  halfOpenQuota : Int
  successThreshold : Int
  windowSize : Int
deriving DecidableEq, Repr

/-- Default values of getCircuitBreaker when the config map carries none. -/
def defaultCBConfig : CBConfig :=
  { failureThreshold := 5, recoveryTimeout := 30, halfOpenQuota := 2
    successThreshold := 3, windowSize := 10 }

/-- Window.GetFailureRate: total failures over total requests among the
non-expired buckets, zero when the window is empty. The inputs are the
summed failure and request counters of the buckets inside the window; the
float64 division of the source is modelled exactly over the rationals. -/
def getFailureRate (failures total : Nat) : ℚ :=
  if total = 0 then 0 else (failures : ℚ) / (total : ℚ)

/-- CircuitBreaker.allowRequest: in closed, a failure rate at or above
failureThreshold percent flips the breaker to open and denies; in open,
once the current bucket is recoveryTimeout seconds old the breaker flips
to half-open (the CAS always succeeds in a single-threaded execution),
resets the quota and admits, and otherwise denies; in half-open the quota
is decremented and a negative result denies. The function returns the
admission verdict together with the updated state and quota. -/
def allowRequest (cfg : CBConfig) (failures total : Nat) (elapsedNs : Int)
    (st : CBState) (quota : Int) : Bool × CBState × Int :=
  match st with
  | .closed =>
      if getFailureRate failures total ≥ (cfg.failureThreshold : ℚ) / 100
      then (false, .opened, quota)
      else (true, .closed, quota)
  | .opened =>
      if elapsedNs ≥ cfg.recoveryTimeout * 1000000000
      then (true, .halfOpen, cfg.halfOpenQuota)
      else (false, .opened, quota)
  | .halfOpen =>
      (decide (quota - 1 ≥ 0), .halfOpen, quota - 1)

/-- CircuitBreakerPlugin.Execute for a given breaker observation: on a
denial it writes 503 and aborts the context, returning no error. The
response-writer wrapping installed on admission only observes the final
status and does not alter the request flow, so it is not modelled. -/
def circuitBreakerExecute (cfg : CBConfig) (failures total : Nat) (elapsedNs : Int)
    (st : CBState) (quota : Int) (ctx : Ctx) : Ctx × (CBState × Int) × Option String :=
  let r := allowRequest cfg failures total elapsedNs st quota
  if r.1 then (ctx, r.2, none)
  else ((ctx.write 503 "service unavailable").abort, r.2, none)

/-! ## Claim C4 -/

/-- C4 (amended): admission follows the state machine of allowRequest. In
closed the request is admitted unless the window failure rate has reached
failureThreshold percent, in which case the breaker transitions to open
and that same request is denied. In open, while the recovery timeout has
not elapsed, every request is denied, the plugin writes 503 and aborts,
and the dispatcher consequently never hands the request to the upstream
proxy. In half-open the quota is decremented and the request is denied
exactly when the result is negative. -/
theorem circuitBreaker_admission (cfg : CBConfig) (failures total : Nat)
    (elapsedNs : Int) (quota : Int) (ctx : Ctx) :
    (getFailureRate failures total < (cfg.failureThreshold : ℚ) / 100 →
      allowRequest cfg failures total elapsedNs .closed quota = (true, .closed, quota)) ∧
    (getFailureRate failures total ≥ (cfg.failureThreshold : ℚ) / 100 →
      allowRequest cfg failures total elapsedNs .closed quota = (false, .opened, quota)) ∧
    (elapsedNs < cfg.recoveryTimeout * 1000000000 →
      allowRequest cfg failures total elapsedNs .opened quota = (false, .opened, quota) ∧
      (circuitBreakerExecute cfg failures total elapsedNs .opened quota ctx).1.aborted
          = true ∧
      (circuitBreakerExecute cfg failures total elapsedNs .opened quota ctx).1.writes
          = ctx.writes ++ [(503, "service unavailable")] ∧
      (∀ (urlOk : String → Bool) (route : ConfRoute) (path : String) (u p2 : String),
        (dispatchAfterChain urlOk route path
            (circuitBreakerExecute cfg failures total elapsedNs .opened quota ctx).1).1
          ≠ .proxy u p2)) ∧
    (allowRequest cfg failures total elapsedNs .halfOpen quota
        = (decide (quota - 1 ≥ 0), .halfOpen, quota - 1)) := by
  refine ⟨?_, ?_, ?_, rfl⟩
  · intro h
    simp [allowRequest, not_le.mpr h]
  · intro h
    simp [allowRequest, h]
  · intro h
    have hdeny : allowRequest cfg failures total elapsedNs .opened quota
        = (false, .opened, quota) := by
      simp [allowRequest, not_le.mpr h]
    refine ⟨hdeny, ?_, ?_, ?_⟩
    · simp [circuitBreakerExecute, hdeny, Ctx.abort]
    · simp [circuitBreakerExecute, hdeny, Ctx.abort, Ctx.write]
    · intro urlOk route path u p2
      have habort : (circuitBreakerExecute cfg failures total elapsedNs
          .opened quota ctx).1.aborted = true := by
        simp [circuitBreakerExecute, hdeny, Ctx.abort]
      simp [dispatchAfterChain, habort]

/-- A blank context over a trivial request, for concrete instantiations. -/
def ctxBlank : Ctx :=
  { request := { path := "/", host := "", method := "GET"
                 header := fun _ => "", query := fun _ => "" }
    aborted := false, writes := [], respHeaders := [], keys := [] }

/-- C4 (counterexample): a request arriving while the breaker is still in
the closed state is denied when the window failure rate has reached the
threshold (here one failure out of one request against the default 5
percent threshold), refuting the claim that in closed the request is
always admitted. -/
theorem closed_state_denies_at_threshold :
    allowRequest defaultCBConfig 1 1 0 .closed 2 = (false, .opened, 2) ∧
    ¬ (allowRequest defaultCBConfig 1 1 0 .closed 2).1 = true := by
  have h : getFailureRate 1 1 ≥ ((defaultCBConfig.failureThreshold : ℚ)) / 100 := by
    simp [getFailureRate, defaultCBConfig]
    norm_num
  have heq : allowRequest defaultCBConfig 1 1 0 .closed 2 = (false, .opened, 2) := by
    simp [allowRequest, h]
  exact ⟨heq, by rw [heq]; simp⟩

/-- Witness for the amended C4 theorem: in the open state with the default
recovery timeout and no elapsed time, the request is denied. -/
theorem circuitBreaker_admission_witness :
    allowRequest defaultCBConfig 0 0 0 .opened 2 = (false, .opened, 2) :=
  ((circuitBreaker_admission defaultCBConfig 0 0 0 2
      ctxBlank).2.2.1 (by norm_num [defaultCBConfig])).1

/-! ## Interface auth plugin (interface_auth package) -/

/-- ASCII whitespace as trimmed by strings.TrimSpace (the auth bodies under
study are ASCII). -/
def isSpaceChar (c : Char) : Bool :=
  c = ' ' || c = '\t' || c = '\n' || c = '\r'

/-- Model of strings.TrimSpace. -/
def trimSpace (s : String) : String :=
  ⟨((s.data.dropWhile isSpaceChar).reverse.dropWhile isSpaceChar).reverse⟩

/-- Classification of the auth-service response by callAuthService. -/
inductive AuthOutcome where
  | allowed
  | forbidden403
  | noBody500
  | unknown401
  | badStatus (code : Int)
deriving DecidableEq, Repr

/-- The decision logic of Plugin.callAuthService once the HTTP response
status and the bytes obtained by the single Read are known: a non-200
status is relayed; an empty body is an internal error; the trimmed body
decides between deny (literal true), allow (literal false) and the unknown
response type. -/
def callAuthDecision (status : Int) (chunk : String) : AuthOutcome :=
  if status ≠ 200 then .badStatus status
  else if chunk == "" then .noBody500
  else if trimSpace chunk == "true" then .forbidden403
  else if trimSpace chunk == "false" then .allowed
  else .unknown401

/-- The single body read of callAuthService: body = make 1024 bytes, one
resp.Body.Read, keep the n bytes returned. A sequential reader hands back
a prefix of the stream, so the chunk is the first min(n, 1024) bytes of
the full body. -/
def authFirstChunk (body : String) (n : Nat) : String :=
  ⟨body.data.take (min n 1024)⟩

/-- Plugin.getTokenFromAuthorizationHeader: empty unless the header starts
with the Bearer prefix, in which case the prefix is stripped. -/
def bearerToken (authHeader : String) : String :=
  if authHeader == "" then ""
  else if strHasPre "Bearer " authHeader then goTrimPre "Bearer " authHeader
  else ""

/-- Plugin.Execute of the interface-auth plugin, for a request whose
whitelist verdict, extracted token, and auth-service response are given:
whitelisted requests pass and publish the whitelist marker; a missing
token yields 401; otherwise the callAuthService classification determines
the written response, and on allow the success marker is published. The
error strings returned to the chain stand for the non-nil Go errors. -/
def interfaceAuthExecute (whitelisted : Bool) (token : String)
    (status : Int) (chunk : String) (ctx : Ctx) : Ctx × Option String :=
  if whitelisted then (ctx.setKey "plugin_result_interface_auth" "whitelist", none)
  else if token == "" then
    ((ctx.write 401 "Token missing or invalid").abort, some "token missing or invalid")
  else
    match callAuthDecision status chunk with
    | .badStatus c =>
        ((ctx.write c "Unauthorized: Invalid response").abort, some "auth status error")
    | .noBody500 =>
        ((ctx.write 500 "Internal error: no response body").abort, some "empty auth body")
    | .forbidden403 =>
        ((ctx.write 403 "Forbidden: Access denied").abort, some "auth rejected")
    | .unknown401 =>
        ((ctx.write 401 "response Unknown Type").abort, some "unknown auth response")
    | .allowed => (ctx.setKey "plugin_result_interface_auth" "success", none)

/-! ## Claim C6 -/

/-- C6 (amended): for a non-whitelisted request with a bearer token, the
auth-service response determines the outcome as follows. A 200 response
whose trimmed body is the literal false passes the request and publishes
plugin_result_interface_auth=success; a trimmed body equal to true rejects
with 403; an empty body yields a 500 error; any other body yields a 401
response Unknown Type error; and a non-200 auth-service status is relayed
as the response status with an Unauthorized message (not 500). -/
theorem interfaceAuth_outcomes (status : Int) (chunk : String) (ctx : Ctx)
    (token : String) (htok : ¬ token = "") :
    (status = 200 → ¬ chunk = "" → trimSpace chunk = "false" →
      interfaceAuthExecute false token status chunk ctx =
        (ctx.setKey "plugin_result_interface_auth" "success", none)) ∧
    (status = 200 → ¬ chunk = "" → trimSpace chunk = "true" →
      (interfaceAuthExecute false token status chunk ctx).1.writes =
        ctx.writes ++ [(403, "Forbidden: Access denied")] ∧
      (interfaceAuthExecute false token status chunk ctx).1.aborted = true) ∧
    (status = 200 → chunk = "" →
      (interfaceAuthExecute false token status chunk ctx).1.writes =
        ctx.writes ++ [(500, "Internal error: no response body")]) ∧
    (status = 200 → ¬ chunk = "" → ¬ trimSpace chunk = "true" →
      ¬ trimSpace chunk = "false" →
      (interfaceAuthExecute false token status chunk ctx).1.writes =
        ctx.writes ++ [(401, "response Unknown Type")]) ∧
    (¬ status = 200 →
      (interfaceAuthExecute false token status chunk ctx).1.writes =
        ctx.writes ++ [(status, "Unauthorized: Invalid response")]) := by
  have htokb : (token == "") = false := by
    simpa using htok
  refine ⟨?_, ?_, ?_, ?_, ?_⟩
  · intro h1 h2 h3
    have h2b : (chunk == "") = false := by simpa using h2
    simp [interfaceAuthExecute, callAuthDecision, htokb, h1, h2b, h3]
  · intro h1 h2 h3
    have h2b : (chunk == "") = false := by simpa using h2
    constructor <;>
      simp [interfaceAuthExecute, callAuthDecision, htokb, h1, h2b, h3,
        Ctx.write, Ctx.abort]
  · intro h1 h2
    simp [interfaceAuthExecute, callAuthDecision, htokb, h1, h2, Ctx.write, Ctx.abort]
  · intro h1 h2 h3 h4
    have h2b : (chunk == "") = false := by simpa using h2
    have h3b : (trimSpace chunk == "true") = false := by simpa using h3
    have h4b : (trimSpace chunk == "false") = false := by simpa using h4
    simp [interfaceAuthExecute, callAuthDecision, htokb, h1, h2b, h3b, h4b,
      Ctx.write, Ctx.abort]
  · intro h1
    simp [interfaceAuthExecute, callAuthDecision, htokb, h1, Ctx.write, Ctx.abort]

/-- C6 (counterexample): a 200 auth-service response whose body is neither
true nor false is answered with status 401 (response Unknown Type), not
with a 500 error as the claim states; likewise a non-200 status is relayed
rather than mapped to 500. -/
theorem authUnknownBody_gives_401 :
    callAuthDecision 200 "hello" = .unknown401 ∧
    (interfaceAuthExecute false "T" 200 "hello" ctxBlank).1.writes =
      [((401 : Int), "response Unknown Type")] ∧
    ((401 : Int) ≠ 500) ∧
    callAuthDecision 404 "false" = .badStatus 404 := by
  refine ⟨by decide, by decide, by decide, by decide⟩

/-- Witness for the amended C6 theorem at a concrete allowing response. -/
theorem interfaceAuth_outcomes_witness :
    interfaceAuthExecute false "T" 200 "false" ctxBlank =
      (ctxBlank.setKey "plugin_result_interface_auth" "success", none) :=
  (interfaceAuth_outcomes 200 "false" ctxBlank "T" (by decide)).1
    rfl (by decide) (by decide)

/-! ## Claim C10 -/

/-- C10 (amended): the allow/deny decision of callAuthService is computed
from at most the first returned chunk of the body, itself at most 1024
bytes; two bodies that agree on that chunk classify identically; any
non-empty first chunk that does not trim to the literal true or false is
classified as the unknown response type; an empty first read, however, is
classified as a missing response body, not as unknown. -/
theorem authDecision_first_chunk (status : Int) (body1 body2 : String) (n : Nat) :
    ((authFirstChunk body1 n).length ≤ 1024) ∧
    (body1.data.take (min n 1024) = body2.data.take (min n 1024) →
      callAuthDecision status (authFirstChunk body1 n) =
        callAuthDecision status (authFirstChunk body2 n)) ∧
    (status = 200 → ¬ authFirstChunk body1 n = "" →
      ¬ trimSpace (authFirstChunk body1 n) = "true" →
      ¬ trimSpace (authFirstChunk body1 n) = "false" →
      callAuthDecision status (authFirstChunk body1 n) = .unknown401) := by
  refine ⟨?_, ?_, ?_⟩
  · show (body1.data.take (min n 1024)).length ≤ 1024
    calc (body1.data.take (min n 1024)).length ≤ min n 1024 := List.length_take_le _ _
      _ ≤ 1024 := min_le_right _ _
  · intro h
    unfold authFirstChunk
    rw [h]
  · intro h1 h2 h3 h4
    have h2b : (authFirstChunk body1 n == "") = false := by simpa using h2
    have h3b : (trimSpace (authFirstChunk body1 n) == "true") = false := by simpa using h3
    have h4b : (trimSpace (authFirstChunk body1 n) == "false") = false := by simpa using h4
    simp [callAuthDecision, h1, h2b, h3b, h4b]

/-- C10 (counterexample): a body whose first read yields nothing trims to
neither true nor false yet is classified as the missing-body error, not as
the unknown response type. -/
theorem emptyRead_not_unknown :
    callAuthDecision 200 (authFirstChunk "" 0) = .noBody500 ∧
    ¬ callAuthDecision 200 (authFirstChunk "" 0) = .unknown401 := by
  refine ⟨by decide, by decide⟩

/-- Witness for the amended C10 theorem: a garbage body of one read is
classified as the unknown response type. -/
theorem authDecision_first_chunk_witness :
    callAuthDecision 200 (authFirstChunk "hello" 5) = .unknown401 :=
  (authDecision_first_chunk 200 "hello" "hello" 5).2.2 rfl (by decide)
    (by decide) (by decide)

/-! ## Consistency plugin (consistency package) -/

/-- Decimal digit value. -/
def digitVal (c : Char) : Option Nat :=
  if '0' ≤ c && c ≤ '9' then some (c.toNat - '0'.toNat) else none

/-- Accumulate decimal digits; any non-digit fails the parse. -/
def parseDigitsAux (acc : Nat) : List Char → Option Nat
  | [] => some acc
  | c :: rest =>
      match digitVal c with
      | some d => parseDigitsAux (acc * 10 + d) rest
      | none => none

/-- Model of strconv.ParseInt(s, 10, 64) for the timestamp header: an
optional sign followed by at least one digit. The int64 range check is not
modelled; the timestamps under study are far below the bound. -/
def parseDecInt (s : String) : Option Int :=
  match s.data with
  | [] => none
  | '-' :: rest =>
      if rest.isEmpty then none
      else (parseDigitsAux 0 rest).map (fun m => -(m : Int))
  | '+' :: rest =>
      if rest.isEmpty then none
      else (parseDigitsAux 0 rest).map (fun m => (m : Int))
  | l => (parseDigitsAux 0 l).map (fun m => (m : Int))

/-- The consistency plugin configuration fields that drive request
checking; the signing algorithm and key material live behind the signature
oracle of checkRequest. -/
structure ConsistencyConfig where
  enabled : Bool
  signatureField : String
  fields : List String
  timestampValidity : Int
deriving DecidableEq, Repr

/-- The defaults installed by New of the consistency plugin. -/
def consistencyDefault : ConsistencyConfig :=
  { enabled := true, signatureField := "X-Signature"
    fields := ["timestamp", "nonce"], timestampValidity := 300 }

/-- ConsistencyPlugin.validateTimestamp: parse the header as a decimal
integer and reject when the absolute offset from now strictly exceeds
timestampValidity seconds. The float64 absolute value of the source is
exact on these integers. -/
def validateTimestamp (validity : Int) (now : Int) (timestampStr : String) :
    Option String :=
  match parseDecInt timestampStr with
  | none => some "invalid timestamp format"
  | some ts =>
      if ((now - ts).natAbs : Int) > validity then some "timestamp expired" else none

/-- Collect the configured header fields in order; an empty value fails
with a missing-field error. -/
def collectFields (getHeader : String → String) : List String → Option (List String)
  | [] => some []
  | f :: rest =>
      if getHeader f == "" then none
      else (collectFields getHeader rest).map (fun vs => getHeader f :: vs)

/-- ConsistencyPlugin.checkRequest: require signature, timestamp and nonce
headers; validate the timestamp window; reject replayed nonces; collect
the configured fields; compare the computed signature (sigOf abstracts
calculateSignature over the configured algorithm) with the supplied one. -/
def checkRequest (sigOf : List String → Option String) (nonceUsed : String → Bool)
    (cfg : ConsistencyConfig) (getHeader : String → String) (now : Int) :
    Option String :=
  if getHeader cfg.signatureField == "" then some "missing signature"
  else if getHeader "timestamp" == "" then some "missing timestamp"
  else
    match validateTimestamp cfg.timestampValidity now (getHeader "timestamp") with
    | some e => some e
    | none =>
        if getHeader "nonce" == "" then some "missing nonce"
        else if nonceUsed (getHeader "nonce") then some "nonce already used"
        else
          match collectFields getHeader cfg.fields with
          | none => some "missing required field"
          | some values =>
              match sigOf values with
              | none => some "signature computation failed"
              | some sigComputed =>
                  if sigComputed == getHeader cfg.signatureField then none
                  else some "invalid signature"

/-- ConsistencyPlugin.Execute: disabled plugins pass; a failed check
writes 400 with the reason and aborts. -/
def consistencyExecute (sigOf : List String → Option String)
    (nonceUsed : String → Bool) (cfg : ConsistencyConfig)
    (getHeader : String → String) (now : Int) (ctx : Ctx) : Ctx × Option String :=
  if !cfg.enabled then (ctx, none)
  else
    match checkRequest sigOf nonceUsed cfg getHeader now with
    | some e => ((ctx.write 400 e).abort, some e)
    | none => (ctx, none)

/-! ## Claim C8 -/

/-- C8: a timestamp whose absolute offset from now is at most
timestampValidity seconds (default 300) passes validation, and an offset
strictly greater fails; in particular an offset of exactly the validity is
accepted and validity plus one is rejected, and a failed check makes
Execute write status 400 and abort. -/
theorem consistency_timestamp_window (validity now ts : Int) (tsStr : String)
    (hparse : parseDecInt tsStr = some ts) :
    (validateTimestamp validity now tsStr = none ↔
      ((now - ts).natAbs : Int) ≤ validity) ∧
    (((now - ts).natAbs : Int) = validity →
      validateTimestamp validity now tsStr = none) ∧
    (((now - ts).natAbs : Int) = validity + 1 →
      validateTimestamp validity now tsStr = some "timestamp expired") ∧
    consistencyDefault.timestampValidity = 300 ∧
    (∀ (sigOf : List String → Option String) (nonceUsed : String → Bool)
       (cfg : ConsistencyConfig) (getHeader : String → String) (ctx : Ctx)
       (e : String), cfg.enabled = true →
       checkRequest sigOf nonceUsed cfg getHeader now = some e →
       (consistencyExecute sigOf nonceUsed cfg getHeader now ctx).1.writes =
         ctx.writes ++ [(400, e)] ∧
       (consistencyExecute sigOf nonceUsed cfg getHeader now ctx).1.aborted = true) := by
  refine ⟨?_, ?_, ?_, rfl, ?_⟩
  · unfold validateTimestamp
    rw [hparse]
    simp only
    by_cases hgt : ((now - ts).natAbs : Int) > validity
    · rw [if_pos hgt]
      constructor
      · intro h; cases h
      · intro h; exact absurd h (not_le.mpr hgt)
    · rw [if_neg hgt]
      constructor
      · intro _; omega
      · intro _; rfl
  · intro h
    unfold validateTimestamp
    rw [hparse]
    simp only
    rw [if_neg (by omega)]
  · intro h
    unfold validateTimestamp
    rw [hparse]
    simp only
    rw [if_pos (by omega)]
  · intro sigOf nonceUsed cfg getHeader ctx e hen hcheck
    simp [consistencyExecute, hen, hcheck, Ctx.write, Ctx.abort]

/-- Witness for the C8 theorem: with the default 300 second validity, a
timestamp offset of exactly 300 seconds is accepted. -/
theorem consistency_timestamp_window_witness :
    validateTimestamp 300 300 "0" = none :=
  (consistency_timestamp_window 300 300 0 "0" (by decide)).2.1 (by decide)

/-! ## Claim C9 -/

/-- C9: when the CORS plugin is configured without an allowed_origins
list, getAllowedOrigins falls back to the single wildcard entry, so every
non-empty Origin is allowed while an empty or absent Origin never is; an
OPTIONS preflight without an Origin is answered 403, a preflight with an
Origin is answered 200 with the CORS headers, and a non-preflight request
with an Origin continues with Access-Control-Allow-Origin set and nothing
written. -/
theorem cors_default_allows_all_origins (cfg : CorsConfig)
    (hcfg : cfg.allowedOrigins = none) (ctx : Ctx) :
    (getAllowedOrigins cfg = ["*"]) ∧
    (∀ origin, ¬ origin = "" → isOriginAllowed cfg origin = true) ∧
    (isOriginAllowed cfg "" = false) ∧
    (ctx.request.method = "OPTIONS" → ctx.request.header "Origin" = "" →
      (corsExecute cfg ctx).1.writes = ctx.writes ++ [(403, "")] ∧
      (corsExecute cfg ctx).1.aborted = true) ∧
    (ctx.request.method = "OPTIONS" → ¬ ctx.request.header "Origin" = "" →
      (corsExecute cfg ctx).1.writes = ctx.writes ++ [(200, "")] ∧
      (corsExecute cfg ctx).1.aborted = true ∧
      (corsExecute cfg ctx).1.hasHeader "Access-Control-Allow-Origin"
          (ctx.request.header "Origin") = true) ∧
    (¬ ctx.request.method = "OPTIONS" → ¬ ctx.request.header "Origin" = "" →
      (corsExecute cfg ctx).1.writes = ctx.writes ∧
      (corsExecute cfg ctx).1.aborted = ctx.aborted ∧
      (corsExecute cfg ctx).2 = none ∧
      (corsExecute cfg ctx).1.hasHeader "Access-Control-Allow-Origin"
          (ctx.request.header "Origin") = true) := by
  have hallowed : ∀ origin, ¬ origin = "" → isOriginAllowed cfg origin = true := by
    intro origin h
    have hb : (origin == "") = false := by simpa using h
    simp [isOriginAllowed, getAllowedOrigins, hcfg, hb]
  refine ⟨by simp [getAllowedOrigins, hcfg], hallowed,
    by simp [isOriginAllowed], ?_, ?_, ?_⟩
  · intro hm ho
    have hmb : (ctx.request.method == "OPTIONS") = true := by simpa using hm
    constructor <;>
      simp [corsExecute, hmb, handlePreflight, ho, isOriginAllowed,
        Ctx.write, Ctx.abort]
  · intro hm ho
    have hmb : (ctx.request.method == "OPTIONS") = true := by simpa using hm
    refine ⟨?_, ?_, ?_⟩ <;>
      simp [corsExecute, hmb, handlePreflight, hallowed _ ho, Ctx.write,
        Ctx.abort, Ctx.setHeader, Ctx.hasHeader]
  · intro hm ho
    have hmb : (ctx.request.method == "OPTIONS") = false := by simpa using hm
    have hob : (ctx.request.header "Origin" != "") = true := by simpa using ho
    refine ⟨?_, ?_, ?_, ?_⟩ <;>
      simp [corsExecute, hmb, handleActualRequest, hob, hallowed _ ho,
        Ctx.setHeader, Ctx.hasHeader]

/-- Witness for the C9 theorem: a concrete OPTIONS preflight without an
Origin header is answered 403. -/
theorem cors_default_allows_all_origins_witness :
    (corsExecute ⟨none, none, none, none, none⟩
        { request := { path := "/", host := "", method := "OPTIONS"
                       header := fun _ => "", query := fun _ => "" }
          aborted := false, writes := [], respHeaders := [], keys := [] }).1.writes
      = [((403 : Int), "")] :=
  ((cors_default_allows_all_origins ⟨none, none, none, none, none⟩ rfl
      { request := { path := "/", host := "", method := "OPTIONS"
                     header := fun _ => "", query := fun _ => "" }
        aborted := false, writes := [], respHeaders := [], keys := [] }).2.2.2.1
    rfl rfl).1

/-! ## Configuration validation and reload
(ConfigManager in the config package, validator.go) -/

/-- ServerConfig from config.go; time.Duration fields are nanosecond
integers. -/
structure ServerConfig where
  port : Int
  mode : String
  readTimeout : Int
  writeTimeout : Int
  maxHeaderBytes : Int
  gracefulShutdownTimeout : Int
deriving DecidableEq, Repr

/-- LogConfig from config.go. -/
structure LogConfig where
  level : String
  format : String
  output : String
  maxSize : Int
  maxAge : Int
  maxBackups : Int
  compress : Bool
deriving DecidableEq, Repr

/-- PluginConfig from config.go; the opaque per-plugin config bag takes no
part in validation and is omitted. -/
structure PluginConf where
  name : String
  enabled : Bool
  order : Int
deriving DecidableEq, Repr

/-- PluginsConfig from config.go. -/
structure PluginsConf where
  available : List PluginConf
  routes : List (String × List PluginConf)
deriving DecidableEq, Repr

/-- Config from config.go. -/
structure Config where
  server : ServerConfig
  log : LogConfig
  plugins : PluginsConf
  routes : List ConfRoute
deriving DecidableEq, Repr

/-- validateServerConfig from validator.go. -/
def validateServerConfig (c : ServerConfig) : Option String :=
  if c.port ≤ 0 || c.port > 65535 then some "invalid port"
  else if c.mode != "debug" && c.mode != "release" then some "invalid mode"
  else if c.readTimeout ≤ 0 then some "invalid read timeout"
  else if c.writeTimeout ≤ 0 then some "invalid write timeout"
  else if c.maxHeaderBytes ≤ 0 then some "invalid max header bytes"
  else if c.gracefulShutdownTimeout ≤ 0 then some "invalid graceful shutdown timeout"
  else none

/-- validateLogConfig from validator.go. -/
def validateLogConfig (c : LogConfig) : Option String :=
  if c.level == "" then some "empty log level"
  else if !(c.level == "debug" || c.level == "info" || c.level == "warn"
            || c.level == "error") then some "invalid log level"
  else if c.format == "" then some "empty log format"
  else if !(c.format == "json" || c.format == "text") then some "invalid log format"
  else if c.output == "" then some "empty log output"
  else if c.maxSize ≤ 0 then some "invalid max size"
  else if c.maxAge ≤ 0 then some "invalid max age"
  else if c.maxBackups ≤ 0 then some "invalid max backups"
  else none

/-- validatePluginConfig from validator.go. -/
def validatePluginConf (p : PluginConf) : Option String :=
  if p.name == "" then some "empty plugin name"
  else if p.order < 0 then some "invalid plugin order"
  else none

/-- Validation of a list of plugin declarations, first failure wins. -/
def validatePluginList : List PluginConf → Option String
  | [] => none
  | p :: rest =>
      match validatePluginConf p with
      | some e => some e
      | none => validatePluginList rest

/-- validatePluginsConfig from validator.go: the available plugins, then
every per-route list. -/
def validatePluginsConf (c : PluginsConf) : Option String :=
  match validatePluginList c.available with
  | some e => some e
  | none =>
      (c.routes.foldl
        (fun acc kv =>
          match acc with
          | some e => some e
          | none => validatePluginList kv.2) none)

/-- validateRouteConfig from validator.go; url.Parse succeeding on the
target is abstracted as the urlOk oracle. -/
def validateRouteConf (urlOk : String → Bool) (r : ConfRoute) : Option String :=
  if r.name == "" then some "empty route name"
  else if r.mtch.priority < 0 then some "invalid route priority"
  else if r.mtch.path == "" then some "empty route path"
  else if r.target.url == "" then some "empty target url"
  else if !(urlOk r.target.url) then some "invalid target url"
  else none

/-- Validation of each route in a list, first failure wins (the indexed
loop of validateRoutesConfig). -/
def validateRouteList (urlOk : String → Bool) : List ConfRoute → Option String
  | [] => none
  | r :: rest =>
      match validateRouteConf urlOk r with
      | some e => some e
      | none => validateRouteList urlOk rest

/-- validateRoutesConfig from validator.go: reject the empty route list up
front, then validate each route in order. A nonempty list of valid routes
validates successfully. -/
def validateRoutesConf (urlOk : String → Bool) (routes : List ConfRoute) :
    Option String :=
  if routes.isEmpty then some "at least one route required"
  else validateRouteList urlOk routes

/-- ValidateConfig from validator.go. -/
def validateConfig (urlOk : String → Bool) (c : Config) : Option String :=
  match validateServerConfig c.server with
  | some e => some e
  | none =>
      match validateLogConfig c.log with
      | some e => some e
      | none =>
          match validatePluginsConf c.plugins with
          | some e => some e
          | none => validateRoutesConf urlOk c.routes

/-- ConfigManager.ReloadConfig: run TestConfig on the file (parse plus
validate, touching no state), abort on failure; then LoadConfig parses and
validates again and only then replaces currentConfig. The file read and
YAML decode are summarised by the parsed argument. Returns the new
currentConfig and the error, when any. -/
def reloadConfig (urlOk : String → Bool) (current : Option Config)
    (parsed : Except String Config) : Option Config × Option String :=
  match parsed with
  | .error e => (current, some e)
  | .ok c =>
      match validateConfig urlOk c with
      | some e => (current, some e)
      | none =>
          match validateConfig urlOk c with
          | some e => (current, some e)
          | none => (some c, none)

/-! ## Claim C7 -/

/-- C7: a reload whose new configuration fails to parse or fails
validation (invalid port or mode, bad log options, bad plugin or route
declarations, unparseable target URL) is aborted with an error and leaves
the active configuration snapshot unchanged; only a configuration that
validates replaces the snapshot. -/
theorem reload_keeps_snapshot_on_invalid (urlOk : String → Bool)
    (current : Option Config) (parsed : Except String Config) :
    (∀ e, parsed = .error e → reloadConfig urlOk current parsed = (current, some e)) ∧
    (∀ c e, parsed = .ok c → validateConfig urlOk c = some e →
      reloadConfig urlOk current parsed = (current, some e)) ∧
    (∀ c, parsed = .ok c → validateConfig urlOk c = none →
      reloadConfig urlOk current parsed = (some c, none)) := by
  refine ⟨?_, ?_, ?_⟩
  · intro e h
    subst h
    rfl
  · intro c e h hv
    subst h
    simp [reloadConfig, hv]
  · intro c h hv
    subst h
    simp [reloadConfig, hv]

/-- A structurally complete but invalid configuration: its port is 0. -/
def badPortConfig : Config :=
  { server := { port := 0, mode := "release", readTimeout := 1, writeTimeout := 1
                maxHeaderBytes := 1, gracefulShutdownTimeout := 1 }
    log := { level := "info", format := "json", output := "stdout", maxSize := 1
             maxAge := 1, maxBackups := 1, compress := false }
    plugins := { available := [], routes := [] }
    routes := [internalRoute] }

/-- The same configuration with a valid port: it passes validation. -/
def validPortConfig : Config :=
  { badPortConfig with server := { badPortConfig.server with port := 8080 } }

/-- Witness for the C7 theorem: reloading onto the invalid port-0
configuration keeps the previous snapshot (here none) and reports the
port error, while reloading onto the valid variant installs it. -/
theorem reload_keeps_snapshot_on_invalid_witness :
    reloadConfig (fun _ => true) none (.ok badPortConfig) =
      (none, some "invalid port") ∧
    reloadConfig (fun _ => true) none (.ok validPortConfig) =
      (some validPortConfig, none) :=
  ⟨(reload_keeps_snapshot_on_invalid (fun _ => true) none (.ok badPortConfig)).2.1
      badPortConfig "invalid port" rfl (by decide),
    (reload_keeps_snapshot_on_invalid (fun _ => true) none (.ok validPortConfig)).2.2
      validPortConfig rfl (by decide)⟩

/-! ## Claim C5: the rolling-window admission bound of the token bucket -/

/-- Run a trace of request instants (nanoseconds, one TokenBucket.allow
call each) through the bucket. -/
def tbRun (rateNum rateDen capacity : Nat) : TBState → List Nat → TBState
  | s, [] => s
  | s, t :: ts => tbRun rateNum rateDen capacity (tbAllow rateNum rateDen capacity s t).1 ts

/-- Number of admitted requests along a trace. -/
def tbCountAll (rateNum rateDen capacity : Nat) : TBState → List Nat → Nat
  | _, [] => 0
  | s, t :: ts =>
      (if (tbAllow rateNum rateDen capacity s t).2 then 1 else 0) +
        tbCountAll rateNum rateDen capacity (tbAllow rateNum rateDen capacity s t).1 ts

/-- Number of admitted requests along a trace whose instants fall in the
half-open window from lo to hi. -/
def tbCountWindow (rateNum rateDen capacity lo hi : Nat) : TBState → List Nat → Nat
  | _, [] => 0
  | s, t :: ts =>
      (if (tbAllow rateNum rateDen capacity s t).2 && (decide (lo ≤ t) && decide (t < hi))
       then 1 else 0) +
        tbCountWindow rateNum rateDen capacity lo hi (tbAllow rateNum rateDen capacity s t).1 ts

/-- Floor division is superadditive. -/
theorem div_add_div_le (a b n : Nat) : a / n + b / n ≤ (a + b) / n := by
  rcases Nat.eq_zero_or_pos n with h | h
  · subst h; simp
  · rw [Nat.le_div_iff_mul_le h]
    calc (a / n + b / n) * n = a / n * n + b / n * n := by ring
      _ ≤ a + b := Nat.add_le_add (Nat.div_mul_le_self a n) (Nat.div_mul_le_self b n)

/-- Adding less than one divisor to the numerator raises the floor by at
most one. -/
theorem add_pred_div_le (x n : Nat) (hn : 0 < n) : (x + (n - 1)) / n ≤ x / n + 1 := by
  rw [Nat.add_div hn]
  have h1 : (n - 1) / n = 0 := Nat.div_eq_of_lt (by omega)
  rw [h1]
  split <;> omega

/-- A positive rate spread over just under one second yields strictly
fewer tokens than the rate. -/
theorem mul_pred_div_le (r n : Nat) (hr : 0 < r) (hn : 0 < n) :
    r * (n - 1) / n ≤ r - 1 := by
  have hlt : r * (n - 1) < r * n := by
    calc r * (n - 1) < r * (n - 1) + r := by omega
      _ = r * (n - 1 + 1) := by ring
      _ = r * n := by rw [Nat.sub_add_cancel (by omega)]
  have : r * (n - 1) / n < r := (Nat.div_lt_iff_lt_mul hn).mpr (by
    calc r * (n - 1) < r * n := hlt
      _ = r * n := rfl)
  omega

/-- The refill keeps the token count at or below capacity. -/
theorem tbRefill_tokens_le (rateNum rateDen capacity : Nat) (s : TBState) (t : Nat)
    (h : s.tokens ≤ capacity) : (tbRefill rateNum rateDen capacity s t).tokens ≤ capacity := by
  simp only [tbRefill]
  split
  · exact min_le_left _ _
  · exact h

/-- The refill adds at most the computed token quantity. -/
theorem tbRefill_tokens_le_add (rateNum rateDen capacity : Nat) (s : TBState) (t : Nat) :
    (tbRefill rateNum rateDen capacity s t).tokens ≤
      s.tokens + rateNum * (t - s.lastRefill) / (nsPerSec * rateDen) := by
  simp only [tbRefill]
  split
  · exact min_le_right _ _
  · exact Nat.le_add_right _ _

/-- The refill leaves lastRefill in place or moves it to the current
instant, and never moves it backwards. -/
theorem tbRefill_last (rateNum rateDen capacity : Nat) (s : TBState) (t : Nat) :
    (tbRefill rateNum rateDen capacity s t).lastRefill = s.lastRefill ∨
      ((tbRefill rateNum rateDen capacity s t).lastRefill = t ∧
        0 < rateNum * (t - s.lastRefill) / (nsPerSec * rateDen)) := by
  simp only [tbRefill]
  split
  case isTrue h => exact Or.inr ⟨rfl, h⟩
  case isFalse => exact Or.inl rfl

/-- lastRefill never decreases across a refill. -/
theorem tbRefill_last_mono (rateNum rateDen capacity : Nat) (s : TBState) (t : Nat) :
    s.lastRefill ≤ (tbRefill rateNum rateDen capacity s t).lastRefill := by
  rcases tbRefill_last rateNum rateDen capacity s t with h | ⟨h, hpos⟩
  · omega
  · rw [h]
    by_contra hlt
    have hz : t - s.lastRefill = 0 := by omega
    rw [hz, Nat.mul_zero, Nat.zero_div] at hpos
    exact absurd hpos (by omega)

/-- Shape of the refill when no tokens are due. -/
theorem tbRefill_zero (rateNum rateDen capacity : Nat) (s : TBState) (t : Nat)
    (h : ¬ 0 < rateNum * (t - s.lastRefill) / (nsPerSec * rateDen)) :
    tbRefill rateNum rateDen capacity s t = s := by
  simp only [tbRefill, if_neg h]

/-- Shape of the refill when tokens are due. -/
theorem tbRefill_pos (rateNum rateDen capacity : Nat) (s : TBState) (t : Nat)
    (h : 0 < rateNum * (t - s.lastRefill) / (nsPerSec * rateDen)) :
    tbRefill rateNum rateDen capacity s t =
      ⟨min capacity (s.tokens + rateNum * (t - s.lastRefill) / (nsPerSec * rateDen)), t⟩ := by
  simp only [tbRefill, if_pos h]

/-- Consuming splits the refilled tokens between the admission bit and the
remaining tokens, leaving lastRefill untouched. -/
theorem tbAllow_consume (rateNum rateDen capacity : Nat) (s : TBState) (t : Nat) :
    ((if (tbAllow rateNum rateDen capacity s t).2 then 1 else 0) +
        (tbAllow rateNum rateDen capacity s t).1.tokens = (tbRefill rateNum rateDen capacity s t).tokens) ∧
    (tbAllow rateNum rateDen capacity s t).1.lastRefill = (tbRefill rateNum rateDen capacity s t).lastRefill := by
  by_cases h : 0 < (tbRefill rateNum rateDen capacity s t).tokens
  · constructor
    · simp only [tbAllow, if_pos h]
      simp
      omega
    · simp only [tbAllow, if_pos h]
  · constructor
    · simp only [tbAllow, if_neg h]
      simp
    · simp only [tbAllow, if_neg h]

/-- Token bound across one full allow call. -/
theorem tbAllow_tokens_le (rateNum rateDen capacity : Nat) (s : TBState) (t : Nat)
    (h : s.tokens ≤ capacity) : (tbAllow rateNum rateDen capacity s t).1.tokens ≤ capacity := by
  have hc := (tbAllow_consume rateNum rateDen capacity s t).1
  have hr := tbRefill_tokens_le rateNum rateDen capacity s t h
  omega

/-- lastRefill values reachable by one allow call. -/
theorem tbAllow_last (rateNum rateDen capacity : Nat) (s : TBState) (t : Nat) :
    (tbAllow rateNum rateDen capacity s t).1.lastRefill = s.lastRefill ∨
      (tbAllow rateNum rateDen capacity s t).1.lastRefill = t := by
  have hc := (tbAllow_consume rateNum rateDen capacity s t).2
  rcases tbRefill_last rateNum rateDen capacity s t with h | ⟨h, _⟩
  · exact Or.inl (by omega)
  · exact Or.inr (by omega)

/-- lastRefill never decreases across one allow call. -/
theorem tbAllow_last_mono (rateNum rateDen capacity : Nat) (s : TBState) (t : Nat) :
    s.lastRefill ≤ (tbAllow rateNum rateDen capacity s t).1.lastRefill := by
  have hc := (tbAllow_consume rateNum rateDen capacity s t).2
  have := tbRefill_last_mono rateNum rateDen capacity s t
  omega

/-- lastRefill never decreases along a trace. -/
theorem tbRun_last_mono (rateNum rateDen capacity : Nat) :
    ∀ (ts : List Nat) (s : TBState),
      s.lastRefill ≤ (tbRun rateNum rateDen capacity s ts).lastRefill := by
  intro ts
  induction ts with
  | nil => intro s; exact le_refl _
  | cons t rest ih =>
      intro s
      exact le_trans (tbAllow_last_mono rateNum rateDen capacity s t) (ih _)

/-- lastRefill stays below any bound dominating the start value and every
instant of the trace. -/
theorem tbRun_last_le (rateNum rateDen capacity : Nat) :
    ∀ (ts : List Nat) (s : TBState) (B : Nat),
      s.lastRefill ≤ B → (∀ t ∈ ts, t ≤ B) →
      (tbRun rateNum rateDen capacity s ts).lastRefill ≤ B := by
  intro ts
  induction ts with
  | nil => intro s B h _; exact h
  | cons t rest ih =>
      intro s B h hmem
      have ht : t ≤ B := hmem t (List.mem_cons_self t rest)
      have hstep : (tbAllow rateNum rateDen capacity s t).1.lastRefill ≤ B := by
        rcases tbAllow_last rateNum rateDen capacity s t with he | he <;> omega
      exact ih _ B hstep (fun u hu => hmem u (List.mem_cons_of_mem t hu))

/-- Token bound along a trace. -/
theorem tbRun_tokens_le (rateNum rateDen capacity : Nat) :
    ∀ (ts : List Nat) (s : TBState), s.tokens ≤ capacity →
      (tbRun rateNum rateDen capacity s ts).tokens ≤ capacity := by
  intro ts
  induction ts with
  | nil => intro s h; exact h
  | cons t rest ih =>
      intro s h
      exact ih _ (tbAllow_tokens_le rateNum rateDen capacity s t h)

/-- Token budget of a trace: the admissions plus the remaining tokens stay
within the initial tokens plus the refill budget of the elapsed interval
between the initial and the final lastRefill; clamping only discards
tokens. -/
theorem tb_budget (rateNum rateDen capacity : Nat) :
    ∀ (ts : List Nat) (s : TBState),
      List.Pairwise (fun a b => a ≤ b) ts → (∀ t ∈ ts, s.lastRefill ≤ t) →
      tbCountAll rateNum rateDen capacity s ts + (tbRun rateNum rateDen capacity s ts).tokens ≤
        s.tokens +
          rateNum * ((tbRun rateNum rateDen capacity s ts).lastRefill - s.lastRefill) / (nsPerSec * rateDen) := by
  intro ts
  induction ts with
  | nil =>
      intro s _ _
      simp [tbCountAll, tbRun]
  | cons t rest ih =>
      intro s hpair hmem
      have hst : s.lastRefill ≤ t := hmem t (List.mem_cons_self t rest)
      have hpairparts := List.pairwise_cons.mp hpair
      have hcons := tbAllow_consume rateNum rateDen capacity s t
      have hIH := ih (tbAllow rateNum rateDen capacity s t).1 hpairparts.2 (by
        intro u hu
        have htu : t ≤ u := hpairparts.1 u hu
        rcases tbAllow_last rateNum rateDen capacity s t with he | he <;> omega)
      have hfinmono : (tbAllow rateNum rateDen capacity s t).1.lastRefill ≤
          (tbRun rateNum rateDen capacity (tbAllow rateNum rateDen capacity s t).1 rest).lastRefill :=
        tbRun_last_mono rateNum rateDen capacity rest _
      simp only [tbCountAll, tbRun]
      by_cases hadd : 0 < rateNum * (t - s.lastRefill) / (nsPerSec * rateDen)
      · have hre := tbRefill_pos rateNum rateDen capacity s t hadd
        have hbit : (if (tbAllow rateNum rateDen capacity s t).2 then 1 else 0) +
            (tbAllow rateNum rateDen capacity s t).1.tokens =
            min capacity (s.tokens + rateNum * (t - s.lastRefill) / (nsPerSec * rateDen)) := by
          rw [hcons.1, hre]
        have hlast2 : (tbAllow rateNum rateDen capacity s t).1.lastRefill = t := by
          rw [hcons.2, hre]
        have hmin : min capacity (s.tokens + rateNum * (t - s.lastRefill) / (nsPerSec * rateDen)) ≤
            s.tokens + rateNum * (t - s.lastRefill) / (nsPerSec * rateDen) := min_le_right _ _
        have harith : rateNum * (t - s.lastRefill) +
            rateNum * ((tbRun rateNum rateDen capacity (tbAllow rateNum rateDen capacity s t).1 rest).lastRefill - t)
            = rateNum * ((tbRun rateNum rateDen capacity (tbAllow rateNum rateDen capacity s t).1 rest).lastRefill
                - s.lastRefill) := by
          rw [← Nat.mul_add]
          congr 1
          omega
        have hdiv := div_add_div_le (rateNum * (t - s.lastRefill))
          (rateNum * ((tbRun rateNum rateDen capacity (tbAllow rateNum rateDen capacity s t).1 rest).lastRefill - t))
          (nsPerSec * rateDen)
        rw [harith] at hdiv
        rw [hlast2] at hIH
        omega
      · have hre := tbRefill_zero rateNum rateDen capacity s t hadd
        have hbit : (if (tbAllow rateNum rateDen capacity s t).2 then 1 else 0) +
            (tbAllow rateNum rateDen capacity s t).1.tokens = s.tokens := by
          rw [hcons.1, hre]
        have hlast2 : (tbAllow rateNum rateDen capacity s t).1.lastRefill = s.lastRefill := by
          rw [hcons.2, hre]
        rw [hlast2] at hIH
        omega

/-- Positivity of the nanosecond divisor. -/
theorem nsPerSec_pos : 0 < nsPerSec := by norm_num [nsPerSec]

/-- In-window admission bound when the refill credit accrued before the
window start is below one token: admissions never exceed the tokens on
hand plus the rate. -/
theorem tb_window_zero_credit (rate capacity W : Nat) :
    ∀ (ts : List Nat) (s : TBState),
      List.Pairwise (fun a b => a ≤ b) ts →
      (∀ t ∈ ts, W ≤ t ∧ t < W + nsPerSec) →
      (∀ t ∈ ts, s.lastRefill ≤ t) →
      rate * (W - s.lastRefill) < nsPerSec →
      tbCountAll rate 1 capacity s ts ≤ s.tokens + rate := by
  intro ts
  induction ts with
  | nil =>
      intro s _ _ _ _
      simp [tbCountAll]
  | cons t rest ih =>
      intro s hpair hwin hmem hcredit
      have hst : s.lastRefill ≤ t := hmem t (List.mem_cons_self t rest)
      have hwt := hwin t (List.mem_cons_self t rest)
      have hpairparts := List.pairwise_cons.mp hpair
      have hcons := tbAllow_consume rate 1 capacity s t
      simp only [tbCountAll]
      by_cases hadd : 0 < rate * (t - s.lastRefill) / nsPerSec
      · have hre := tbRefill_pos rate 1 capacity s t (by rw [Nat.mul_one]; exact hadd)
        rw [Nat.mul_one] at hre
        have hlast2 : (tbAllow rate 1 capacity s t).1.lastRefill = t := by
          rw [hcons.2, hre]
        have hmem2 : ∀ u ∈ rest, (tbAllow rate 1 capacity s t).1.lastRefill ≤ u := by
          intro u hu
          rw [hlast2]
          exact hpairparts.1 u hu
        have hbud := tb_budget rate 1 capacity rest (tbAllow rate 1 capacity s t).1
          hpairparts.2 hmem2
        rw [Nat.mul_one] at hbud
        rw [hlast2] at hbud
        have hfin_mono : t ≤
            (tbRun rate 1 capacity (tbAllow rate 1 capacity s t).1 rest).lastRefill := by
          have := tbRun_last_mono rate 1 capacity rest (tbAllow rate 1 capacity s t).1
          omega
        have hfin_le :
            (tbRun rate 1 capacity (tbAllow rate 1 capacity s t).1 rest).lastRefill
              ≤ W + nsPerSec - 1 := by
          apply tbRun_last_le
          · rw [hlast2]
            have := nsPerSec_pos
            omega
          · intro u hu
            have := (hwin u (List.mem_cons_of_mem t hu)).2
            omega
        have hrate : 0 < rate := by
          by_contra hr
          have hz : rate = 0 := by omega
          rw [hz] at hadd
          simp at hadd
        have hA : rate * (t - s.lastRefill) ≤
            rate * (t - W) + rate * (W - s.lastRefill) := by
          rw [← Nat.mul_add]
          exact Nat.mul_le_mul_left rate (by omega)
        have hA2 : rate * (t - s.lastRefill) / nsPerSec ≤
            (rate * (t - W) + (nsPerSec - 1)) / nsPerSec := by
          apply Nat.div_le_div_right
          omega
        have hA3 : (rate * (t - W) + (nsPerSec - 1)) / nsPerSec ≤
            rate * (t - W) / nsPerSec + 1 :=
          add_pred_div_le _ _ nsPerSec_pos
        have harith : rate * (t - W) +
            rate * ((tbRun rate 1 capacity (tbAllow rate 1 capacity s t).1 rest).lastRefill - t)
            = rate * ((tbRun rate 1 capacity (tbAllow rate 1 capacity s t).1 rest).lastRefill
                - W) := by
          rw [← Nat.mul_add]
          congr 1
          omega
        have hdiv := div_add_div_le (rate * (t - W))
          (rate * ((tbRun rate 1 capacity (tbAllow rate 1 capacity s t).1 rest).lastRefill - t))
          nsPerSec
        rw [harith] at hdiv
        have hcap : rate *
            ((tbRun rate 1 capacity (tbAllow rate 1 capacity s t).1 rest).lastRefill - W)
              / nsPerSec ≤ rate * (nsPerSec - 1) / nsPerSec := by
          apply Nat.div_le_div_right
          exact Nat.mul_le_mul_left rate (by omega)
        have hr1 := mul_pred_div_le rate nsPerSec hrate nsPerSec_pos
        have hbit : (if (tbAllow rate 1 capacity s t).2 then 1 else 0) +
            (tbAllow rate 1 capacity s t).1.tokens =
            min capacity (s.tokens + rate * (t - s.lastRefill) / nsPerSec) := by
          rw [hcons.1, hre]
        have hmin : min capacity (s.tokens + rate * (t - s.lastRefill) / nsPerSec) ≤
            s.tokens + rate * (t - s.lastRefill) / nsPerSec := min_le_right _ _
        omega
      · have hre := tbRefill_zero rate 1 capacity s t (by rw [Nat.mul_one]; exact hadd)
        have hbit : (if (tbAllow rate 1 capacity s t).2 then 1 else 0) +
            (tbAllow rate 1 capacity s t).1.tokens = s.tokens := by
          rw [hcons.1, hre]
        have hlast2 : (tbAllow rate 1 capacity s t).1.lastRefill = s.lastRefill := by
          rw [hcons.2, hre]
        have hIH := ih (tbAllow rate 1 capacity s t).1 hpairparts.2
          (fun u hu => (hwin u (List.mem_cons_of_mem t hu)))
          (by
            intro u hu
            rw [hlast2]
            exact hmem u (List.mem_cons_of_mem t hu))
          (by rw [hlast2]; exact hcredit)
        omega

/-- In-window master bound: starting from any bucket state whose tokens
respect the capacity, the admissions along a trace confined to one second
never exceed capacity plus rate. -/
theorem tb_window_master (rate capacity W : Nat) :
    ∀ (ts : List Nat) (s : TBState),
      List.Pairwise (fun a b => a ≤ b) ts →
      (∀ t ∈ ts, W ≤ t ∧ t < W + nsPerSec) →
      (∀ t ∈ ts, s.lastRefill ≤ t) →
      s.tokens ≤ capacity →
      tbCountAll rate 1 capacity s ts ≤ capacity + rate := by
  intro ts s hpair hwin hmem htok
  cases ts with
  | nil => simp [tbCountAll]
  | cons t rest =>
      have hst : s.lastRefill ≤ t := hmem t (List.mem_cons_self t rest)
      have hwt := hwin t (List.mem_cons_self t rest)
      have hpairparts := List.pairwise_cons.mp hpair
      have hcons := tbAllow_consume rate 1 capacity s t
      by_cases hadd : 0 < rate * (t - s.lastRefill) / nsPerSec
      · simp only [tbCountAll]
        have hre := tbRefill_pos rate 1 capacity s t (by rw [Nat.mul_one]; exact hadd)
        rw [Nat.mul_one] at hre
        have hlast2 : (tbAllow rate 1 capacity s t).1.lastRefill = t := by
          rw [hcons.2, hre]
        have hmem2 : ∀ u ∈ rest, (tbAllow rate 1 capacity s t).1.lastRefill ≤ u := by
          intro u hu
          rw [hlast2]
          exact hpairparts.1 u hu
        have hbud := tb_budget rate 1 capacity rest (tbAllow rate 1 capacity s t).1
          hpairparts.2 hmem2
        rw [Nat.mul_one] at hbud
        rw [hlast2] at hbud
        have hfin_mono : t ≤
            (tbRun rate 1 capacity (tbAllow rate 1 capacity s t).1 rest).lastRefill := by
          have := tbRun_last_mono rate 1 capacity rest (tbAllow rate 1 capacity s t).1
          omega
        have hfin_le :
            (tbRun rate 1 capacity (tbAllow rate 1 capacity s t).1 rest).lastRefill
              ≤ W + nsPerSec - 1 := by
          apply tbRun_last_le
          · rw [hlast2]
            have := nsPerSec_pos
            omega
          · intro u hu
            have := (hwin u (List.mem_cons_of_mem t hu)).2
            omega
        have hrate : 0 < rate := by
          by_contra hr
          have hz : rate = 0 := by omega
          rw [hz] at hadd
          simp at hadd
        have hcap : rate *
            ((tbRun rate 1 capacity (tbAllow rate 1 capacity s t).1 rest).lastRefill - t)
              / nsPerSec ≤ rate * (nsPerSec - 1) / nsPerSec := by
          apply Nat.div_le_div_right
          exact Nat.mul_le_mul_left rate (by omega)
        have hr1 := mul_pred_div_le rate nsPerSec hrate nsPerSec_pos
        have hbit : (if (tbAllow rate 1 capacity s t).2 then 1 else 0) +
            (tbAllow rate 1 capacity s t).1.tokens =
            min capacity (s.tokens + rate * (t - s.lastRefill) / nsPerSec) := by
          rw [hcons.1, hre]
        have hmin : min capacity (s.tokens + rate * (t - s.lastRefill) / nsPerSec) ≤
            capacity := min_le_left _ _
        omega
      · have hz : rate * (t - s.lastRefill) < nsPerSec := by
          by_contra hge
          exact hadd (Nat.div_pos (by omega) nsPerSec_pos)
        have hcredit : rate * (W - s.lastRefill) < nsPerSec := by
          calc rate * (W - s.lastRefill) ≤ rate * (t - s.lastRefill) :=
                Nat.mul_le_mul_left rate (by omega)
            _ < nsPerSec := hz
        have := tb_window_zero_credit rate capacity W (t :: rest) s hpair hwin hmem hcredit
        omega

/-- Requests outside the window are never counted, whatever the state
does. -/
theorem tbCountWindow_zero (rateNum rateDen capacity lo hi : Nat) :
    ∀ (ts : List Nat) (s : TBState),
      (∀ t ∈ ts, ¬ (lo ≤ t ∧ t < hi)) →
      tbCountWindow rateNum rateDen capacity lo hi s ts = 0 := by
  intro ts
  induction ts with
  | nil => intro s _; rfl
  | cons t rest ih =>
      intro s h
      have ht := h t (List.mem_cons_self t rest)
      have hfl : (decide (lo ≤ t) && decide (t < hi)) = false := by
        by_cases h1 : lo ≤ t
        · have h2 : ¬ t < hi := fun h2 => ht ⟨h1, h2⟩
          simp [h2]
        · simp [h1]
      simp only [tbCountWindow, hfl, Bool.and_false, if_false]
      simpa using ih (tbAllow rateNum rateDen capacity s t).1
        (fun u hu => h u (List.mem_cons_of_mem t hu))

/-- Window counts concatenate along the trace. -/
theorem tbCountWindow_append (rateNum rateDen capacity lo hi : Nat) :
    ∀ (xs ys : List Nat) (s : TBState),
      tbCountWindow rateNum rateDen capacity lo hi s (xs ++ ys) =
        tbCountWindow rateNum rateDen capacity lo hi s xs +
          tbCountWindow rateNum rateDen capacity lo hi (tbRun rateNum rateDen capacity s xs) ys := by
  intro xs
  induction xs with
  | nil => intro ys s; simp [tbCountWindow, tbRun]
  | cons x rest ih =>
      intro ys s
      simp only [List.cons_append, List.append_eq, tbCountWindow, tbRun]
      rw [ih]
      omega

/-- The window count never exceeds the total count. -/
theorem tbCountWindow_le_all (rateNum rateDen capacity lo hi : Nat) :
    ∀ (ts : List Nat) (s : TBState),
      tbCountWindow rateNum rateDen capacity lo hi s ts ≤ tbCountAll rateNum rateDen capacity s ts := by
  intro ts
  induction ts with
  | nil => intro s; exact le_refl _
  | cons t rest ih =>
      intro s
      simp only [tbCountWindow, tbCountAll]
      have hbit : (if (tbAllow rateNum rateDen capacity s t).2 &&
            (decide (lo ≤ t) && decide (t < hi)) then 1 else 0) ≤
          (if (tbAllow rateNum rateDen capacity s t).2 then 1 else 0) := by
        cases hb : (tbAllow rateNum rateDen capacity s t).2
        · simp
        · simp only [hb, Bool.true_and]
          split <;> simp
      have := ih (tbAllow rateNum rateDen capacity s t).1
      omega

/-- Elements surviving the sorted dropWhile at a bound all dominate the
bound. -/
theorem sorted_dropWhile_ge (B : Nat) :
    ∀ (l : List Nat), List.Pairwise (fun a b => a ≤ b) l →
      ∀ u ∈ l.dropWhile (fun x => decide (x < B)), B ≤ u := by
  intro l
  induction l with
  | nil => intro _ u hu; simp [List.dropWhile] at hu
  | cons a rest ih =>
      intro hpair u hu
      have hparts := List.pairwise_cons.mp hpair
      by_cases ha : a < B
      · rw [List.dropWhile_cons_of_pos (by simpa using ha)] at hu
        exact ih hparts.2 u hu
      · rw [List.dropWhile_cons_of_neg (by simpa using ha)] at hu
        rcases List.mem_cons.mp hu with he | he
        · omega
        · have := hparts.1 u he
          omega

/-! The claim C5 theorem itself. -/

/-- C5 (amended): under the token-bucket refill rule of TokenBucket.allow
(add floor(elapsed-seconds times rate) tokens clamped at capacity, consume
one token per admitted request, deny otherwise), for a configured rate
that is a whole number of tokens per second (rateDen = 1), the number of
admitted requests whose instants fall within any rolling one-second window
never exceeds rate plus burst, for any time-ordered request trace starting
at or after the bucket state it begins from. The bucket starts with tokens
equal to burst, so the token bound hypothesis holds at creation and, by
the invariance of the bound, forever after. For fractional rates the bound
fails in the code: sub-token credit ages across the window edge because
lastRefill is not advanced when the computed refill truncates to zero (see
the counterexample). -/
theorem tokenBucket_window_bound (rate capacity W : Nat) :
    ∀ (ts : List Nat) (s : TBState),
      List.Pairwise (fun a b => a ≤ b) ts →
      (∀ t ∈ ts, s.lastRefill ≤ t) →
      s.tokens ≤ capacity →
      tbCountWindow rate 1 capacity W (W + nsPerSec) s ts ≤ rate + capacity := by
  intro ts
  induction ts with
  | nil =>
      intro s _ _ _
      simp [tbCountWindow]
  | cons t rest ih =>
      intro s hpair hmem htok
      have hst : s.lastRefill ≤ t := hmem t (List.mem_cons_self t rest)
      have hpairparts := List.pairwise_cons.mp hpair
      by_cases hin : W ≤ t ∧ t < W + nsPerSec
      · -- split the trace at the end of the window
        have hsplit : (t :: rest).takeWhile (fun x => decide (x < W + nsPerSec)) ++
            (t :: rest).dropWhile (fun x => decide (x < W + nsPerSec)) = t :: rest :=
          List.takeWhile_append_dropWhile _ _
        have hmidwin : ∀ u ∈ (t :: rest).takeWhile (fun x => decide (x < W + nsPerSec)),
            W ≤ u ∧ u < W + nsPerSec := by
          intro u hu
          have hlt : u < W + nsPerSec := by
            simpa using List.mem_takeWhile_imp hu
          have humem : u ∈ t :: rest :=
            (List.takeWhile_sublist _).mem hu
          rcases List.mem_cons.mp humem with he | he
          · exact ⟨by omega, hlt⟩
          · exact ⟨by have := hpairparts.1 u he; omega, hlt⟩
        have hpost : ∀ u ∈ (t :: rest).dropWhile (fun x => decide (x < W + nsPerSec)),
            W + nsPerSec ≤ u := sorted_dropWhile_ge (W + nsPerSec) (t :: rest) hpair
        have hcount : tbCountWindow rate 1 capacity W (W + nsPerSec) s (t :: rest) =
            tbCountWindow rate 1 capacity W (W + nsPerSec) s
              ((t :: rest).takeWhile (fun x => decide (x < W + nsPerSec))) +
            tbCountWindow rate 1 capacity W (W + nsPerSec)
              (tbRun rate 1 capacity s
                ((t :: rest).takeWhile (fun x => decide (x < W + nsPerSec))))
              ((t :: rest).dropWhile (fun x => decide (x < W + nsPerSec))) := by
          conv_lhs => rw [← hsplit]
          exact tbCountWindow_append rate 1 capacity W (W + nsPerSec) _ _ s
        have hzero : tbCountWindow rate 1 capacity W (W + nsPerSec)
            (tbRun rate 1 capacity s
              ((t :: rest).takeWhile (fun x => decide (x < W + nsPerSec))))
            ((t :: rest).dropWhile (fun x => decide (x < W + nsPerSec))) = 0 := by
          apply tbCountWindow_zero
          intro u hu
          have := hpost u hu
          omega
        have hmid : tbCountWindow rate 1 capacity W (W + nsPerSec) s
            ((t :: rest).takeWhile (fun x => decide (x < W + nsPerSec))) ≤
            capacity + rate := by
          refine le_trans (tbCountWindow_le_all rate 1 capacity W (W + nsPerSec) _ s) ?_
          apply tb_window_master rate capacity W _ s
          · exact hpair.sublist (List.takeWhile_sublist _)
          · exact hmidwin
          · intro u hu
            exact hmem u ((List.takeWhile_sublist _).mem hu)
          · exact htok
        omega
      · -- the head is outside the window: it is not counted
        have hfl : (decide (W ≤ t) && decide (t < W + nsPerSec)) = false := by
          by_cases h1 : W ≤ t
          · have h2 : ¬ t < W + nsPerSec := fun h2 => hin ⟨h1, h2⟩
            simp [h2]
          · simp [h1]
        have hmem2 : ∀ u ∈ rest, (tbAllow rate 1 capacity s t).1.lastRefill ≤ u := by
          intro u hu
          have htu : t ≤ u := hpairparts.1 u hu
          have hsu := hmem u (List.mem_cons_of_mem t hu)
          rcases tbAllow_last rate 1 capacity s t with he | he <;> omega
        have htok2 := tbAllow_tokens_le rate 1 capacity s t htok
        have := ih (tbAllow rate 1 capacity s t).1 hpairparts.2 hmem2 htok2
        simp only [tbCountWindow, hfl, Bool.and_false, Bool.false_eq_true, if_false]
        omega

/-- Witness for the C5 theorem at a concrete short trace: with rate 1 and
burst 1 the two calls at instants 0 and 1 inside the window starting at 0
admit at most two requests. -/
theorem tokenBucket_window_bound_witness :
    tbCountWindow 1 1 1 0 (0 + nsPerSec) ⟨1, 0⟩ [0, 1] ≤ 1 + 1 :=
  tokenBucket_window_bound 1 1 0 [0, 1] ⟨1, 0⟩ (by decide) (by decide) (by decide)

/-- C5 (counterexample): with the fractional configured rate of one half
token per second (requests_per_second 0.5, exactly representable in
float64) and burst 1, the bucket admits two requests inside one rolling
second, exceeding rate + burst = 3/2. The bucket idles 1.5 seconds, during
which the computed refill floor(1.5 times 0.5) = 0 leaves lastRefill
stale; the request at 1.5 s consumes the stored token, and the request at
2.1 s sees 2.1 s of credit since lastRefill, refills floor(2.1 times 0.5)
= 1 token and is admitted as well. The trace is time-ordered, starts after
the bucket state, and the state respects the capacity, so it meets every
assumption of the claim. -/
theorem fractional_rate_window_exceeded :
    tbCountWindow 1 2 1 1500000000 (1500000000 + nsPerSec) ⟨1, 0⟩
        [1500000000, 2100000000] = 2 ∧
    List.Pairwise (fun a b => a ≤ b) [1500000000, 2100000000] ∧
    (∀ t ∈ [1500000000, 2100000000], (⟨1, 0⟩ : TBState).lastRefill ≤ t) ∧
    ((⟨1, 0⟩ : TBState).tokens ≤ 1) ∧
    ¬ ((2 : ℚ) ≤ 1 / 2 + 1) := by
  refine ⟨by decide, by decide, by decide, by decide, by norm_num⟩

end GatewayGo
